import Mathlib

/-!
Shallow embedding of the Opus compiler front-end (lexer, parser, semantic
analyzer) from the C sources in this repository, together with theorems
settling the specification claims.

Conventions of the embedding:
* The C byte stream (`FILE*`) is a `List Char`; `EOF` is the end of the list,
  represented by `Option.none` at the places where the C code stores the
  `int` result of `fgetc`.
* C `int` counters and locations are Lean `Int` (C signed overflow is
  undefined behaviour, so the unbounded model agrees with C on all defined
  executions).
* Lexemes (bounded C `char[128]` buffers) are `List Char`; the explicit
  `LEXEME_LENGTH` guards of the C code are kept where the code has them.
* `printf` reporting is modelled by the error fields the code assigns.
* The few identifiers that had to be renamed for Lean are noted next to
  their definitions; everything else keeps the C names.
-/

set_option linter.unusedVariables false

/-- Token kinds, from `token.h` (the revision matching `lexer.c`; the two
logical-operator kinds appear in `lexer.c` itself). -/
inductive TokenType where
  | TOKEN_EOF
  | TOKEN_ERROR
  | TOKEN_NUMERIC
  | TOKEN_ARITHMETIC_ADDITION
  | TOKEN_ARITHMETIC_SUBTRACTION
  | TOKEN_ARITHMETIC_MULTIPLICATION
  | TOKEN_ARITHMETIC_DIVISION
  | TOKEN_ARITHMETIC_MODULO
  | TOKEN_DELIMITER
  | TOKEN_RIGHT_ARROW
  | TOKEN_ASSIGNMENT_OPERATOR
  | TOKEN_COMMA
  | TOKEN_COLON
  | TOKEN_LOGICAL_EQUIVALENCE
  | TOKEN_OPENING_BRACKET
  | TOKEN_CLOSING_BRACKET
  | TOKEN_OPENING_CURLY_BRACKET
  | TOKEN_CLOSING_CURLY_BRACKET
  | TOKEN_OPENING_SQUARE_BRACKET
  | TOKEN_CLOSING_SQUARE_BRACKET
  | TOKEN_ARITHMETIC_FACTORIAL
  | TOKEN_LOGICAL_NEGATION
  | TOKEN_NOT_EQUAL_TO_OPERATOR
  | TOKEN_LESS_THAN_OPERATOR
  | TOKEN_LESS_OR_EQUAL_TO_OPERATOR
  | TOKEN_GREATER_THAN_OPERATOR
  | TOKEN_GREATER_OR_EQUAL_TO_OPERATOR
  | TOKEN_IDENTIFIER
  | TOKEN_KEYWORD_VAR
  | TOKEN_KEYWORD_LET
  | TOKEN_KEYWORD_IF
  | TOKEN_KEYWORD_ELSE
  | TOKEN_KEYWORD_REPEAT
  | TOKEN_KEYWORD_UNTIL
  | TOKEN_KEYWORD_FOR
  | TOKEN_KEYWORD_IN
  | TOKEN_KEYWORD_RETURN
  | TOKEN_KEYWORD_CLASS
  | TOKEN_KEYWORD_STRUCT
  | TOKEN_KEYWORD_FUNC
  | TOKEN_KEYWORD_TRUE
  | TOKEN_KEYWORD_FALSE
  | TOKEN_STRING_LITERAL
  | TOKEN_LOGICAL_AND_OPERATOR
  | TOKEN_LOGICAL_OR_OPERATOR
deriving DecidableEq, Repr

/-- Token-level error kinds, from `token.h`. -/
inductive TokenError where
  | ERROR_TOKEN_NONE
  | ERROR_UNRECOGNIZABLE
  | ERROR_MALFORMED_NUMERIC
  | ERROR_UNDEFINED_OPERATOR
  | ERROR_OVERFLOW
  | ERROR_ORPHAN_UNDERSCORE
  | ERROR_UNTERMINATED_STRING
deriving DecidableEq, Repr

/-- Stream-level lexer error kinds, from `lexer.h`. -/
inductive LexerError where
  | ERROR_LEXER_NONE
  | ERROR_UNCLOSED_BRACKET
  | ERROR_UNCLOSED_SQUARE_BRACKET
  | ERROR_UNCLOSED_CURLY_BRACKET
deriving DecidableEq, Repr

/-- Source location (1-indexed line and column), from `token.h`. -/
structure Location where
  line : Int
  column : Int
deriving DecidableEq, Repr

/-- A token: kind, error sub-kind, location and lexeme, from `token.h`. -/
structure Token where
  tokenType : TokenType
  tokenError : TokenError
  location : Location
  lexeme : List Char
deriving DecidableEq, Repr

/-- Lexer state, from `lexer.h`: current error, location, previous token
kind, and the three bracket counters `isInClosure[3]` (round `()`,
curly `{}`, square `[]`), modelled as three named `Int` fields. -/
structure Lexer where
  lexerError : LexerError
  location : Location
  previousTokenType : TokenType
  closureRound : Int
  closureCurly : Int
  closureSquare : Int
deriving DecidableEq, Repr

/-- LEXEME_LENGTH from `token.h`. -/
def LEXEME_LENGTH : Nat := 128

/-- C `isdigit` on the default locale (ASCII digits). -/
def isdigitC (c : Char) : Bool := '0' ≤ c && c ≤ '9'

/-- C `isalpha` on the default locale (ASCII letters). -/
def isalphaC (c : Char) : Bool := ('a' ≤ c && c ≤ 'z') || ('A' ≤ c && c ≤ 'Z')

/-- C `isalnum` on the default locale. -/
def isalnumC (c : Char) : Bool := isalphaC c || isdigitC c

/-- Definition `isWhitespace` from `lexer.c`: space, tab, vertical tab,
carriage return and form feed; the newline is deliberately excluded. -/
def isWhitespace (c : Char) : Bool :=
  c = ' ' || c = '\t' || c = '\x0b' || c = '\r' || c = '\x0c'

/-- ARITHMETIC_OPERATORS from `token.h`. -/
def ARITHMETIC_OPERATORS : List Char := "+-*/%!=".toList

/-- COMPARISON_OPERATORS from `token.h`. -/
def COMPARISON_OPERATORS : List Char := "<>=!".toList

/-- CLOSING_CLOSURES from `token.h`. -/
def CLOSING_CLOSURES : List Char := "])\x7d".toList

/-- NATIVE_OPERATORS from `token.h`. -/
def NATIVE_OPERATORS : List Char := "+-*/%!@#$&?~=.:>".toList

/-- LOGICAL_OPERATORS. The revision of `token.h` defining this macro is not
in the snapshot; `lexer.c` documents it as the logical operator characters
`(&|)` in the numeric-terminator comment, which fixes its value. -/
def LOGICAL_OPERATORS : List Char := "&|".toList

/-- C `strchr(s, c)` viewed as a membership test on a character: it also
succeeds when `c` is the NUL character (strchr then finds the terminator). -/
def strchrChar (s : List Char) (c : Char) : Bool := c = '\x00' || s.contains c

/-- C `strchr(s, c)` where `c` is the `int` result of a peek: `EOF` is the
value `-1`, whose `char` conversion `'\xFF'` is in none of the operator
strings, hence never matches. -/
def strchrPeek (s : List Char) (c : Option Char) : Bool :=
  match c with
  | none => false
  | some c => strchrChar s c

/-- Location update performed by `consumeNextCharacter` for a consumed
character `c`: newline advances the line, anything else the column. -/
def advanceLexer (lexer : Lexer) (c : Char) : Lexer :=
  if c = '\n' then { lexer with location := ⟨lexer.location.line + 1, 1⟩ }
  else { lexer with location := ⟨lexer.location.line, lexer.location.column + 1⟩ }

/-- Location update of `consumeNextCharacter` at end of input: `fgetc`
returns `EOF`, which is not a newline, so the column still advances. -/
def advanceLexerEOF (lexer : Lexer) : Lexer :=
  { lexer with location := ⟨lexer.location.line, lexer.location.column + 1⟩ }

/-- Definition `consumeNextCharacter` from `lexer.c`: consume one byte and
update the location. Returns the read character (`none` for `EOF`). -/
def consumeNextCharacter (lexer : Lexer) (sourceCode : List Char) :
    Option Char × Lexer × List Char :=
  match sourceCode with
  | [] => (none, advanceLexerEOF lexer, [])
  | c :: rest => (some c, advanceLexer lexer c, rest)

/-- Definition `peekNextCharacter` from `lexer.c`: read without consuming. -/
def peekNextCharacter (sourceCode : List Char) : Option Char := sourceCode.head?

/-- Definition `isInClosure` from `lexer.c`: the lexer is inside a closure
when the round or the square counter is non-zero (C truthiness of the two
`int` counters; the curly counter is not consulted). -/
def isInClosure (lexer : Lexer) : Bool :=
  lexer.closureRound ≠ 0 || lexer.closureSquare ≠ 0

/-- Combined loop of `locateStartOfNextToken` together with
`locateStartOfNextLine` from `lexer.c`, written as one structural
recursion over the stream with an `inComment` mode flag: outside a
comment, whitespace (and closure newlines) is consumed, and `//` switches
into comment mode after its first slash was consumed; inside a comment,
characters are consumed up to and including the terminating newline
(`locateStartOfNextLine` never faces a leading newline here because the
second `/` is still unconsumed on entry). At end of input the column
advances once per `EOF`-returning `consumeNextCharacter` call, which
happens twice when the stream ends inside a comment. -/
def locateStartOfNextTokenMode (lexer : Lexer) (sourceCode : List Char)
    (inComment : Bool) : Option Char × Lexer × List Char :=
  match sourceCode with
  | [] =>
    (none, advanceLexerEOF (if inComment then advanceLexerEOF lexer else lexer), [])
  | c :: rest =>
    if inComment then
      if c = '\n' then locateStartOfNextTokenMode (advanceLexer lexer c) rest false
      else locateStartOfNextTokenMode (advanceLexer lexer c) rest true
    else
      if isWhitespace c || (isInClosure lexer && c = '\n') then
        locateStartOfNextTokenMode (advanceLexer lexer c) rest false
      else if c = '/' && peekNextCharacter rest = some '/' then
        locateStartOfNextTokenMode (advanceLexer lexer c) rest true
      else (some c, advanceLexer lexer c, rest)

/-- Definition `locateStartOfNextToken` from `lexer.c`: consume whitespace
(and newlines while inside a round/square closure), then skip `//` comment
lines, returning the first character of the next token (consumed). -/
def locateStartOfNextToken (lexer : Lexer) (sourceCode : List Char) :
    Option Char × Lexer × List Char :=
  locateStartOfNextTokenMode lexer sourceCode false

/-- Definition `skipCurrenToken` from `lexer.c`: collect into the lexeme all
upcoming characters that are in `skippedSequence` (via `strchr`). -/
def skipCurrenToken (lexer : Lexer) (sourceCode : List Char)
    (lexeme : List Char) (skippedSequence : List Char) :
    List Char × Lexer × List Char :=
  match sourceCode with
  | [] => (lexeme, lexer, [])
  | c :: rest =>
    if strchrChar skippedSequence c then
      skipCurrenToken (advanceLexer lexer c) rest (lexeme ++ [c]) skippedSequence
    else (lexeme, lexer, c :: rest)

/-- Definition `initSafeToken` from `lexer.c`: build a non-error token,
back-dating the column to the start of the lexeme, and record the token
kind as the lexer's previous token kind. -/
def initSafeToken (tokenType : TokenType) (lexer : Lexer) (lexeme : List Char) :
    Token × Lexer :=
  ({ tokenType := tokenType
     tokenError := TokenError.ERROR_TOKEN_NONE
     location := ⟨lexer.location.line, lexer.location.column - lexeme.length + 1⟩
     lexeme := lexeme },
   { lexer with previousTokenType := tokenType })

/-- Definition `initUnsafeToken` from `lexer.c`: build an error token
(kind `TOKEN_ERROR` with the given sub-kind); the unterminated-string error
uses a different column formula; previous token kind becomes `TOKEN_ERROR`. -/
def initUnsafeToken (tokenError : TokenError) (lexer : Lexer) (lexeme : List Char) :
    Token × Lexer :=
  ({ tokenType := TokenType.TOKEN_ERROR
     tokenError := tokenError
     location := ⟨lexer.location.line,
       if tokenError = TokenError.ERROR_UNTERMINATED_STRING then
         lexer.location.column - 1
       else lexer.location.column - lexeme.length + 1⟩
     lexeme := lexeme },
   { lexer with previousTokenType := TokenType.TOKEN_ERROR })

/-- Definition `reportLexerError` from `lexer.c`: at end of input, set the
lexer error from the closure counters (checked in the order round, curly,
square, each assignment overwriting the previous one). -/
def reportLexerError (lexer : Lexer) : Lexer :=
  let lexer := if lexer.closureRound ≠ 0 then
    { lexer with lexerError := LexerError.ERROR_UNCLOSED_BRACKET } else lexer
  let lexer := if lexer.closureCurly ≠ 0 then
    { lexer with lexerError := LexerError.ERROR_UNCLOSED_CURLY_BRACKET } else lexer
  if lexer.closureSquare ≠ 0 then
    { lexer with lexerError := LexerError.ERROR_UNCLOSED_SQUARE_BRACKET } else lexer

/-- Loop of `parseNumeric` from `lexer.c` collecting digits and periods
while the lexeme stays below `LEXEME_LENGTH` (the running index `decimal`
equals the lexeme length). Returns (lexer, rest, lexeme, floatingPosition). -/
def parseNumericDigits (lexer : Lexer) (sourceCode : List Char)
    (lexeme : List Char) (floatingPosition : Nat) :
    Lexer × List Char × List Char × Nat :=
  match sourceCode with
  | [] => (lexer, [], lexeme, floatingPosition)
  | c :: rest =>
    if (isdigitC c || c = '.') && lexeme.length < LEXEME_LENGTH then
      parseNumericDigits (advanceLexer lexer c) rest (lexeme ++ [c])
        (floatingPosition + if c = '.' then 1 else 0)
    else (lexer, c :: rest, lexeme, floatingPosition)

/-- Terminator test of `parseNumeric` from `lexer.c`: a numeric must end on
whitespace, a newline, an arithmetic / comparison / logical operator
character, a closing closure, a comma, or `EOF`. -/
def isNumericTerminator (c : Option Char) : Bool :=
  match c with
  | none => true
  | some c =>
    isWhitespace c || c = '\n' || strchrChar ARITHMETIC_OPERATORS c ||
    strchrChar COMPARISON_OPERATORS c || strchrChar CLOSING_CLOSURES c ||
    c = ',' || strchrChar LOGICAL_OPERATORS c

/-- Recovery loop of `parseNumeric` from `lexer.c`: collect the invalid
characters up to the next terminator (bounded by `LEXEME_LENGTH`). -/
def parseNumericInvalid (lexer : Lexer) (sourceCode : List Char)
    (lexeme : List Char) : Lexer × List Char × List Char :=
  match sourceCode with
  | [] => (lexer, [], lexeme)
  | c :: rest =>
    if !isNumericTerminator (some c) && lexeme.length < LEXEME_LENGTH then
      parseNumericInvalid (advanceLexer lexer c) rest (lexeme ++ [c])
    else (lexer, c :: rest, lexeme)

/-- Definition `parseNumeric` from `lexer.c`. The lexeme already holds the
first character (a digit, or a minus sign from the subtraction case). -/
def parseNumeric (lexer : Lexer) (sourceCode : List Char) (lexeme : List Char) :
    Token × Lexer × List Char :=
  let d := parseNumericDigits lexer sourceCode lexeme 0
  let lexer := d.1
  let sourceCode := d.2.1
  let lexeme := d.2.2.1
  let floatingPosition := d.2.2.2
  if floatingPosition > 1 then
    let t := initUnsafeToken TokenError.ERROR_MALFORMED_NUMERIC lexer lexeme
    (t.1, t.2, sourceCode)
  else if isNumericTerminator (peekNextCharacter sourceCode) then
    let t := initSafeToken TokenType.TOKEN_NUMERIC lexer lexeme
    (t.1, t.2, sourceCode)
  else
    let r := parseNumericInvalid lexer sourceCode lexeme
    let lexer := r.1
    let sourceCode := r.2.1
    let lexeme := r.2.2
    if lexeme.length = LEXEME_LENGTH - 1 then
      let t := initUnsafeToken TokenError.ERROR_OVERFLOW lexer lexeme
      (t.1, t.2, sourceCode)
    else
      let t := initUnsafeToken TokenError.ERROR_MALFORMED_NUMERIC lexer lexeme
      (t.1, t.2, sourceCode)

/-- String-literal loop of `getNextToken` from `lexer.c`: starting from the
character after the opening quote, copy characters (a backslash is copied
as itself, and the loop then continues with the following character) until
a quote, a NUL, `EOF`, or the length bound. Returns the character that
ended the loop together with the state. -/
def stringLiteralLoop (lexer : Lexer) (sourceCode : List Char)
    (c : Option Char) (lexeme : List Char) :
    Option Char × Lexer × List Char × List Char :=
  match c with
  | none => (none, lexer, sourceCode, lexeme)
  | some ch =>
    if ch ≠ '"' && ch ≠ '\x00' && lexeme.length < LEXEME_LENGTH then
      match sourceCode with
      | [] => (none, advanceLexerEOF lexer, [], lexeme ++ [ch])
      | c' :: rest => stringLiteralLoop (advanceLexer lexer c') rest (some c') (lexeme ++ [ch])
    else (some ch, lexer, sourceCode, lexeme)

/-- Identifier loop of `getNextToken` from `lexer.c`: extend the lexeme
with alphanumerics and underscores. -/
def identifierLoop (lexer : Lexer) (sourceCode : List Char) (lexeme : List Char) :
    Lexer × List Char × List Char :=
  match sourceCode with
  | [] => (lexer, [], lexeme)
  | c :: rest =>
    if isalnumC c || c = '_' then
      identifierLoop (advanceLexer lexer c) rest (lexeme ++ [c])
    else (lexer, c :: rest, lexeme)

/-- Keyword reclassification of `getNextToken` from `lexer.c`. -/
def keywordType (lexeme : List Char) : TokenType :=
  if lexeme = "var".toList then TokenType.TOKEN_KEYWORD_VAR
  else if lexeme = "let".toList then TokenType.TOKEN_KEYWORD_LET
  else if lexeme = "if".toList then TokenType.TOKEN_KEYWORD_IF
  else if lexeme = "else".toList then TokenType.TOKEN_KEYWORD_ELSE
  else if lexeme = "repeat".toList then TokenType.TOKEN_KEYWORD_REPEAT
  else if lexeme = "until".toList then TokenType.TOKEN_KEYWORD_UNTIL
  else if lexeme = "for".toList then TokenType.TOKEN_KEYWORD_FOR
  else if lexeme = "in".toList then TokenType.TOKEN_KEYWORD_IN
  else if lexeme = "return".toList then TokenType.TOKEN_KEYWORD_RETURN
  else if lexeme = "class".toList then TokenType.TOKEN_KEYWORD_CLASS
  else if lexeme = "struct".toList then TokenType.TOKEN_KEYWORD_STRUCT
  else if lexeme = "func".toList then TokenType.TOKEN_KEYWORD_FUNC
  else if lexeme = "true".toList then TokenType.TOKEN_KEYWORD_TRUE
  else if lexeme = "false".toList then TokenType.TOKEN_KEYWORD_FALSE
  else TokenType.TOKEN_IDENTIFIER

/-- Initial one-character lexeme `{(char) character, '\0'}` of
`getNextToken`: `EOF` truncates to the byte `0xFF`, a NUL gives the empty
C string. -/
def initialLexeme (c : Option Char) : List Char :=
  match c with
  | none => ['\xFF']
  | some c => if c = '\x00' then [] else [c]

/-- Body of `getNextToken` from `lexer.c` after `locateStartOfNextToken`
has produced the first character `c` of the token (already consumed). -/
def getNextTokenAux (lexer : Lexer) (c : Option Char) (sourceCode : List Char) :
    Token × Lexer × List Char :=
  let lexeme := initialLexeme c
  match c with
  | none =>
    let lexer := reportLexerError lexer
    let t := initSafeToken TokenType.TOKEN_EOF lexer lexeme
    (t.1, t.2, sourceCode)
  | some character =>
    if character = '\n' && !isInClosure lexer then
      let t := initSafeToken TokenType.TOKEN_DELIMITER lexer lexeme
      (t.1, t.2, sourceCode)
    else if isdigitC character then
      parseNumeric lexer sourceCode lexeme
    else if character = '+' then
      if strchrPeek NATIVE_OPERATORS (peekNextCharacter sourceCode) then
        let s := skipCurrenToken lexer sourceCode lexeme NATIVE_OPERATORS
        let t := initUnsafeToken TokenError.ERROR_UNDEFINED_OPERATOR s.2.1 s.1
        (t.1, t.2, s.2.2)
      else
        let t := initSafeToken TokenType.TOKEN_ARITHMETIC_ADDITION lexer lexeme
        (t.1, t.2, sourceCode)
    else if character = '-' then
      if peekNextCharacter sourceCode = some '>' then
        let n := consumeNextCharacter lexer sourceCode
        let lexeme := lexeme ++ ['>']
        if strchrPeek NATIVE_OPERATORS (peekNextCharacter n.2.2) then
          let s := skipCurrenToken n.2.1 n.2.2 lexeme NATIVE_OPERATORS
          let t := initUnsafeToken TokenError.ERROR_UNDEFINED_OPERATOR s.2.1 s.1
          (t.1, t.2, s.2.2)
        else
          let t := initSafeToken TokenType.TOKEN_RIGHT_ARROW n.2.1 lexeme
          (t.1, t.2, n.2.2)
      else if (peekNextCharacter sourceCode).elim false isdigitC then
        parseNumeric lexer sourceCode lexeme
      else if strchrPeek NATIVE_OPERATORS (peekNextCharacter sourceCode) then
        let s := skipCurrenToken lexer sourceCode lexeme NATIVE_OPERATORS
        let t := initUnsafeToken TokenError.ERROR_UNDEFINED_OPERATOR s.2.1 s.1
        (t.1, t.2, s.2.2)
      else
        let t := initSafeToken TokenType.TOKEN_ARITHMETIC_SUBTRACTION lexer lexeme
        (t.1, t.2, sourceCode)
    else if character = '*' then
      if strchrPeek NATIVE_OPERATORS (peekNextCharacter sourceCode) then
        let s := skipCurrenToken lexer sourceCode lexeme NATIVE_OPERATORS
        let t := initUnsafeToken TokenError.ERROR_UNDEFINED_OPERATOR s.2.1 s.1
        (t.1, t.2, s.2.2)
      else
        let t := initSafeToken TokenType.TOKEN_ARITHMETIC_MULTIPLICATION lexer lexeme
        (t.1, t.2, sourceCode)
    else if character = '/' then
      if strchrPeek NATIVE_OPERATORS (peekNextCharacter sourceCode) then
        let s := skipCurrenToken lexer sourceCode lexeme NATIVE_OPERATORS
        let t := initUnsafeToken TokenError.ERROR_UNDEFINED_OPERATOR s.2.1 s.1
        (t.1, t.2, s.2.2)
      else
        let t := initSafeToken TokenType.TOKEN_ARITHMETIC_DIVISION lexer lexeme
        (t.1, t.2, sourceCode)
    else if character = '%' then
      if strchrPeek NATIVE_OPERATORS (peekNextCharacter sourceCode) then
        let s := skipCurrenToken lexer sourceCode lexeme NATIVE_OPERATORS
        let t := initUnsafeToken TokenError.ERROR_UNDEFINED_OPERATOR s.2.1 s.1
        (t.1, t.2, s.2.2)
      else
        let t := initSafeToken TokenType.TOKEN_ARITHMETIC_MODULO lexer lexeme
        (t.1, t.2, sourceCode)
    else if character = '=' then
      if peekNextCharacter sourceCode = some '=' then
        let n := consumeNextCharacter lexer sourceCode
        let lexeme := lexeme ++ ['=']
        if strchrPeek NATIVE_OPERATORS (peekNextCharacter n.2.2) then
          let s := skipCurrenToken n.2.1 n.2.2 lexeme NATIVE_OPERATORS
          let t := initUnsafeToken TokenError.ERROR_UNDEFINED_OPERATOR s.2.1 s.1
          (t.1, t.2, s.2.2)
        else
          let t := initSafeToken TokenType.TOKEN_LOGICAL_EQUIVALENCE n.2.1 lexeme
          (t.1, t.2, n.2.2)
      else if strchrPeek NATIVE_OPERATORS (peekNextCharacter sourceCode) then
        let s := skipCurrenToken lexer sourceCode lexeme NATIVE_OPERATORS
        let t := initUnsafeToken TokenError.ERROR_UNDEFINED_OPERATOR s.2.1 s.1
        (t.1, t.2, s.2.2)
      else
        let t := initSafeToken TokenType.TOKEN_ASSIGNMENT_OPERATOR lexer lexeme
        (t.1, t.2, sourceCode)
    else if character = '!' then
      if lexer.previousTokenType = TokenType.TOKEN_NUMERIC ||
         lexer.previousTokenType = TokenType.TOKEN_IDENTIFIER then
        let t := initSafeToken TokenType.TOKEN_ARITHMETIC_FACTORIAL lexer lexeme
        (t.1, t.2, sourceCode)
      else if peekNextCharacter sourceCode = some '=' then
        let n := consumeNextCharacter lexer sourceCode
        let lexeme := lexeme ++ ['=']
        if strchrPeek NATIVE_OPERATORS (peekNextCharacter n.2.2) then
          let s := skipCurrenToken n.2.1 n.2.2 lexeme NATIVE_OPERATORS
          let t := initUnsafeToken TokenError.ERROR_UNDEFINED_OPERATOR s.2.1 s.1
          (t.1, t.2, s.2.2)
        else
          let t := initSafeToken TokenType.TOKEN_NOT_EQUAL_TO_OPERATOR n.2.1 lexeme
          (t.1, t.2, n.2.2)
      else if strchrPeek NATIVE_OPERATORS (peekNextCharacter sourceCode) then
        let s := skipCurrenToken lexer sourceCode lexeme NATIVE_OPERATORS
        let t := initUnsafeToken TokenError.ERROR_UNDEFINED_OPERATOR s.2.1 s.1
        (t.1, t.2, s.2.2)
      else
        let t := initSafeToken TokenType.TOKEN_LOGICAL_NEGATION lexer lexeme
        (t.1, t.2, sourceCode)
    else if character = '<' then
      if peekNextCharacter sourceCode = some '=' then
        let n := consumeNextCharacter lexer sourceCode
        let lexeme := lexeme ++ ['=']
        if strchrPeek NATIVE_OPERATORS (peekNextCharacter n.2.2) then
          let s := skipCurrenToken n.2.1 n.2.2 lexeme NATIVE_OPERATORS
          let t := initUnsafeToken TokenError.ERROR_UNDEFINED_OPERATOR s.2.1 s.1
          (t.1, t.2, s.2.2)
        else
          let t := initSafeToken TokenType.TOKEN_LESS_OR_EQUAL_TO_OPERATOR n.2.1 lexeme
          (t.1, t.2, n.2.2)
      else if strchrPeek NATIVE_OPERATORS (peekNextCharacter sourceCode) then
        let s := skipCurrenToken lexer sourceCode lexeme NATIVE_OPERATORS
        let t := initUnsafeToken TokenError.ERROR_UNDEFINED_OPERATOR s.2.1 s.1
        (t.1, t.2, s.2.2)
      else
        let t := initSafeToken TokenType.TOKEN_LESS_THAN_OPERATOR lexer lexeme
        (t.1, t.2, sourceCode)
    else if character = '>' then
      if peekNextCharacter sourceCode = some '=' then
        let n := consumeNextCharacter lexer sourceCode
        let lexeme := lexeme ++ ['=']
        if strchrPeek NATIVE_OPERATORS (peekNextCharacter n.2.2) then
          let s := skipCurrenToken n.2.1 n.2.2 lexeme NATIVE_OPERATORS
          let t := initUnsafeToken TokenError.ERROR_UNDEFINED_OPERATOR s.2.1 s.1
          (t.1, t.2, s.2.2)
        else
          let t := initSafeToken TokenType.TOKEN_GREATER_OR_EQUAL_TO_OPERATOR n.2.1 lexeme
          (t.1, t.2, n.2.2)
      else if strchrPeek NATIVE_OPERATORS (peekNextCharacter sourceCode) then
        let s := skipCurrenToken lexer sourceCode lexeme NATIVE_OPERATORS
        let t := initUnsafeToken TokenError.ERROR_UNDEFINED_OPERATOR s.2.1 s.1
        (t.1, t.2, s.2.2)
      else
        let t := initSafeToken TokenType.TOKEN_GREATER_THAN_OPERATOR lexer lexeme
        (t.1, t.2, sourceCode)
    else if character = ',' then
      let t := initSafeToken TokenType.TOKEN_COMMA lexer lexeme
      (t.1, t.2, sourceCode)
    else if character = ':' then
      if strchrPeek NATIVE_OPERATORS (peekNextCharacter sourceCode) then
        let s := skipCurrenToken lexer sourceCode lexeme NATIVE_OPERATORS
        let t := initUnsafeToken TokenError.ERROR_UNDEFINED_OPERATOR s.2.1 s.1
        (t.1, t.2, s.2.2)
      else
        let t := initSafeToken TokenType.TOKEN_COLON lexer lexeme
        (t.1, t.2, sourceCode)
    else if character = '(' then
      let lexer := { lexer with closureRound := lexer.closureRound + 1 }
      let t := initSafeToken TokenType.TOKEN_OPENING_BRACKET lexer lexeme
      (t.1, t.2, sourceCode)
    else if character = ')' then
      let lexer := { lexer with closureRound := lexer.closureRound - 1 }
      let t := initSafeToken TokenType.TOKEN_CLOSING_BRACKET lexer lexeme
      (t.1, t.2, sourceCode)
    else if character = '{' then
      let lexer := { lexer with closureCurly := lexer.closureCurly + 1 }
      let t := initSafeToken TokenType.TOKEN_OPENING_CURLY_BRACKET lexer lexeme
      (t.1, t.2, sourceCode)
    else if character = '}' then
      let lexer := { lexer with closureCurly := lexer.closureCurly - 1 }
      let t := initSafeToken TokenType.TOKEN_CLOSING_CURLY_BRACKET lexer lexeme
      (t.1, t.2, sourceCode)
    else if character = '[' then
      let lexer := { lexer with closureSquare := lexer.closureSquare + 1 }
      let t := initSafeToken TokenType.TOKEN_OPENING_SQUARE_BRACKET lexer lexeme
      (t.1, t.2, sourceCode)
    else if character = ']' then
      let lexer := { lexer with closureSquare := lexer.closureSquare - 1 }
      let t := initSafeToken TokenType.TOKEN_CLOSING_SQUARE_BRACKET lexer lexeme
      (t.1, t.2, sourceCode)
    else if character = '&' && peekNextCharacter sourceCode = some '&' then
      let n := consumeNextCharacter lexer sourceCode
      let lexeme := lexeme ++ ['&']
      let nextCharacter := peekNextCharacter n.2.2
      if strchrPeek NATIVE_OPERATORS nextCharacter && nextCharacter ≠ some '!' then
        let s := skipCurrenToken n.2.1 n.2.2 lexeme NATIVE_OPERATORS
        let t := initUnsafeToken TokenError.ERROR_UNDEFINED_OPERATOR s.2.1 s.1
        (t.1, t.2, s.2.2)
      else
        let t := initSafeToken TokenType.TOKEN_LOGICAL_AND_OPERATOR n.2.1 lexeme
        (t.1, t.2, n.2.2)
    else if character = '|' && peekNextCharacter sourceCode = some '|' then
      let n := consumeNextCharacter lexer sourceCode
      let lexeme := lexeme ++ ['|']
      let nextCharacter := peekNextCharacter n.2.2
      if strchrPeek NATIVE_OPERATORS nextCharacter && nextCharacter ≠ some '!' then
        let s := skipCurrenToken n.2.1 n.2.2 lexeme NATIVE_OPERATORS
        let t := initUnsafeToken TokenError.ERROR_UNDEFINED_OPERATOR s.2.1 s.1
        (t.1, t.2, s.2.2)
      else
        let t := initSafeToken TokenType.TOKEN_LOGICAL_OR_OPERATOR n.2.1 lexeme
        (t.1, t.2, n.2.2)
    else if character = '"' then
      let n := consumeNextCharacter lexer sourceCode
      let r := stringLiteralLoop n.2.1 n.2.2 n.1 []
      match r.1 with
      | none =>
        let t := initUnsafeToken TokenError.ERROR_UNTERMINATED_STRING r.2.1 r.2.2.2
        (t.1, t.2, r.2.2.1)
      | some _ =>
        let t := initSafeToken TokenType.TOKEN_STRING_LITERAL r.2.1 r.2.2.2
        (t.1, t.2, r.2.2.1)
    else if character = '_' &&
        !((peekNextCharacter sourceCode).elim false isalphaC) &&
        peekNextCharacter sourceCode ≠ some '_' then
      let t := initUnsafeToken TokenError.ERROR_ORPHAN_UNDERSCORE lexer lexeme
      (t.1, t.2, sourceCode)
    else if isalphaC character || character = '_' then
      let r := identifierLoop lexer sourceCode lexeme
      let t := initSafeToken (keywordType r.2.2) r.1 r.2.2
      (t.1, t.2, r.2.1)
    else
      let t := initUnsafeToken TokenError.ERROR_UNRECOGNIZABLE lexer lexeme
      (t.1, t.2, sourceCode)

/-- Definition `getNextToken` from `lexer.c`: locate the next token start,
then lex one token. -/
def getNextToken (lexer : Lexer) (sourceCode : List Char) :
    Token × Lexer × List Char :=
  let l := locateStartOfNextToken lexer sourceCode
  getNextTokenAux l.2.1 l.1 l.2.2

/-- Definition `initLexer` from `lexer.c`. -/
def initLexer : Lexer :=
  { lexerError := LexerError.ERROR_LEXER_NONE
    location := ⟨1, 1⟩
    previousTokenType := TokenType.TOKEN_ERROR
    closureRound := 0
    closureCurly := 0
    closureSquare := 0 }

/-- AST node kinds, from `ast.h` (the revision matching `parser.c`;
`AST_TYPE_ANNOT` renames the C `AST_TYPE_ANNOTATION`). -/
inductive ASTNodeType where
  | AST_PROGRAM
  | AST_VARIABLE_DECLARATION
  | AST_CONSTANT_DECLARATION
  | AST_IDENTIFIER
  | AST_LITERAL
  | AST_BOOLEAN_LITERAL
  | AST_TYPE_ANNOT
  | AST_ASSIGNMENT_STATEMENT
  | AST_BINARY_EXPRESSION
  | AST_UNARY_EXPRESSION
  | AST_POSTFIX_EXPRESSION
  | AST_FUNCTION_CALL
  | AST_ARGUMENT
  | AST_ARGUMENT_LABEL
  | AST_ARGUMENT_LIST
  | AST_FUNCTION_DEFINITION
  | AST_FUNCTION_SIGNATURE
  | AST_FUNCTION_IMPLEMENTATION
  | AST_PARAMETER
  | AST_PARAMETER_LABEL
  | AST_PARAMETER_LIST
  | AST_FUNCTION_RETURN_TYPE
  | AST_RETURN_STATEMENT
  | AST_CONDITIONAL_STATEMENT
  | AST_CONDITIONAL_BODY
  | AST_REPEAT_UNTIL_STATEMENT
  | AST_FOR_IN_STATEMENT
  | AST_FOR_IN_CONTEXT
  | AST_CODE_BLOCK
  | AST_ERROR
deriving DecidableEq, Repr

/-- Symbolic model of C `float` values: the claims never depend on
floating-point arithmetic, so float payloads record the computation the C
code performs instead of asserting numeric results. -/
inductive CFloat where
  | atofLexeme (lexeme : List Char)
  | ofInt (n : Int)
  | add (a b : CFloat)
  | sub (a b : CFloat)
  | mul (a b : CFloat)
  | divf (a b : CFloat)
  | fmodf (a b : CFloat)
  | neg (a : CFloat)
deriving DecidableEq, Repr

/-- Node value payload (the C union in `ast.h`): the four members are kept
as separate fields; the byte aliasing of the C union is not modelled, and
no claim depends on reading a member other than the one last written. -/
structure NodeValue where
  integerValue : Int
  floatingValue : CFloat
  booleanValue : Bool
  stringLiteral : List Char
deriving DecidableEq, Repr

/-- Stand-in for the uninitialized `nodeValue` union of a fresh C node
(malloc leaves it arbitrary; no claim reads an unwritten member). -/
def uninitNodeValue : NodeValue :=
  { integerValue := 0
    floatingValue := CFloat.ofInt 0
    booleanValue := false
    stringLiteral := [] }

/-- AST node, from `ast.h`, extended by the semantic-analysis fields that
`parser.c` initializes (`inferredType`, `isFoldable`) and `analyzer.c`
writes (`nodeValue`). The `null` constructor is the C null pointer; child
pointers are read and written through the `Option`-valued interface below,
where `Option.none` stands for `null`. -/
inductive ASTNode where
  | null
  | mk (nodeType : ASTNodeType) (token : Option Token)
       (left right : ASTNode)
       (inferredType : List Char) (isFoldable : Bool) (nodeValue : NodeValue)
deriving DecidableEq, Repr

/-- Node kind (reading it through a null pointer is meaningless: the C code
never does, and the `AST_ERROR` answer here is never inspected). -/
def ASTNode.nodeType : ASTNode → ASTNodeType
  | .null => ASTNodeType.AST_ERROR
  | .mk t _ _ _ _ _ _ => t

def ASTNode.token : ASTNode → Option Token
  | .null => none
  | .mk _ tk _ _ _ _ _ => tk

def ASTNode.left : ASTNode → Option ASTNode
  | .null => none
  | .mk _ _ .null _ _ _ _ => none
  | .mk _ _ l _ _ _ _ => some l

def ASTNode.right : ASTNode → Option ASTNode
  | .null => none
  | .mk _ _ _ .null _ _ _ => none
  | .mk _ _ _ r _ _ _ => some r

def ASTNode.inferredType : ASTNode → List Char
  | .null => []
  | .mk _ _ _ _ ty _ _ => ty

def ASTNode.isFoldable : ASTNode → Bool
  | .null => false
  | .mk _ _ _ _ _ f _ => f

def ASTNode.nodeValue : ASTNode → NodeValue
  | .null => uninitNodeValue
  | .mk _ _ _ _ _ _ v => v

def ASTNode.withLeft : ASTNode → Option ASTNode → ASTNode
  | .null, _ => .null
  | .mk t tk _ r ty f v, l => .mk t tk (l.getD .null) r ty f v

def ASTNode.withRight : ASTNode → Option ASTNode → ASTNode
  | .null, _ => .null
  | .mk t tk l _ ty f v, r => .mk t tk l (r.getD .null) ty f v

def ASTNode.withInferredType : ASTNode → List Char → ASTNode
  | .null, _ => .null
  | .mk t tk l r _ f v, ty => .mk t tk l r ty f v

def ASTNode.withFoldable : ASTNode → Bool → ASTNode
  | .null, _ => .null
  | .mk t tk l r ty _ v, f => .mk t tk l r ty f v

def ASTNode.withValue : ASTNode → NodeValue → ASTNode
  | .null, _ => .null
  | .mk t tk l r ty f _, v => .mk t tk l r ty f v

/-- Definition `initASTNode` from `parser.c`: fresh node with empty
children, inferred type `"Any"` and `isFoldable = 1`. -/
def initASTNode (nodeType : ASTNodeType) (token : Option Token) : ASTNode :=
  .mk nodeType token .null .null "Any".toList true uninitNodeValue

/-- Parser error kinds, from `parser.h` (`PARSE_ERROR_MISSING_TYPE_ANNOT`
renames the C `PARSE_ERROR_MISSING_TYPE_ANNOTATION`). -/
inductive ParseError where
  | PARSE_ERROR_NONE
  | PARSE_ERROR_MISSING_IDENTIFIER
  | PARSE_ERROR_MISSING_TYPE_ANNOT
  | PARSE_ERROR_MISSING_TYPE_NAME
  | PARSE_ERROR_MISSING_DELIMITER
  | PARSE_ERROR_DECLARATION_SYNTAX
  | PARSE_ERROR_MISSING_RIGHT_VALUE
  | PARSE_ERROR_MISSING_ARGUMENT_LABEL
  | PARSE_ERROR_MISSING_COLON_AFTER_LABEL
  | PARSE_ERROR_UNRESOLVABLE
  | PARSE_ERROR_MISSING_FUNCTION_NAME
  | PARSE_ERROR_MISSING_OPENING_BRACKET
  | PARSE_ERROR_MISSING_RIGHT_ARROW
  | PARSE_ERROR_MISSING_RETURN_TYPE
  | PARSE_ERROR_MISSING_OPENING_CURLY_BRACKET
  | PARSE_ERROR_MISSING_UNTIL_CONDITION
  | PARSE_ERROR_MISSING_IN_STATEMENT
  | PARSE_ERROR_MISSING_CONDITION
  | PARSE_ERROR_MISSING_OPERAND
  | PARSE_ERROR_MISSING_ARGUMENT
  | PARSE_ERROR_MISSING_PARAMETER_LABEL
deriving DecidableEq, Repr

/-- Parser state, from `parser.h`: the owned lexer and its byte stream, the
current token, the last error and diagnostic token; `errors` additionally
records every `reportParseError` call (the C code prints a diagnostic
there), so "parses without error" is `errors = []`. -/
structure ParserState where
  lexer : Lexer
  sourceCode : List Char
  currentToken : Token
  parseError : ParseError
  diagnosticToken : Option Token
  errors : List ParseError
deriving DecidableEq, Repr

/-- Definition `matchTokenType` from `parser.c`. -/
def matchTokenType (p : ParserState) (t : TokenType) : Bool :=
  p.currentToken.tokenType = t

/-- Definition `advanceParser` from `parser.c` combined with the
`parser->currentToken = advanceParser(...)` assignment at every use site:
pull the next token from the lexer. -/
def advanceParser (p : ParserState) : ParserState :=
  let r := getNextToken p.lexer p.sourceCode
  { p with currentToken := r.1, lexer := r.2.1, sourceCode := r.2.2 }

/-- Definition `reportParseError` from `parser.c`: prints one diagnostic;
modelled by appending the current error kind to the trace. -/
def reportParseError (p : ParserState) : ParserState :=
  { p with errors := p.errors ++ [p.parseError] }

/-- Definition `escapeParseError` from `parser.c`: drain tokens until the
current token is a delimiter or `EOF` (fuelled; `none` = fuel exhausted). -/
def escapeParseError (fuel : Nat) (p : ParserState) : Option ParserState :=
  match fuel with
  | 0 => none
  | fuel + 1 =>
    if matchTokenType p TokenType.TOKEN_DELIMITER || matchTokenType p TokenType.TOKEN_EOF
    then some p
    else escapeParseError fuel (advanceParser p)

/-- Error exit common to every statement-level production of `parser.c`:
set `parseError` and `diagnosticToken`, report, synchronize, and hand back
a substituted `AST_ERROR` node. -/
def parseErrorExit (fuel : Nat) (e : ParseError) (diag : Option Token)
    (p : ParserState) : Option (ASTNode × ParserState) :=
  let p := { p with parseError := e, diagnosticToken := diag }
  let p := reportParseError p
  match escapeParseError fuel p with
  | none => none
  | some p => some (initASTNode ASTNodeType.AST_ERROR none, p)

/-- Definition `isExpression` from `parser.c`: token kinds that may start
an expression. -/
def isExpression (p : ParserState) : Bool :=
  matchTokenType p TokenType.TOKEN_IDENTIFIER ||
  matchTokenType p TokenType.TOKEN_NUMERIC ||
  matchTokenType p TokenType.TOKEN_STRING_LITERAL ||
  matchTokenType p TokenType.TOKEN_ARITHMETIC_SUBTRACTION ||
  matchTokenType p TokenType.TOKEN_LOGICAL_NEGATION ||
  matchTokenType p TokenType.TOKEN_OPENING_BRACKET ||
  matchTokenType p TokenType.TOKEN_KEYWORD_TRUE ||
  matchTokenType p TokenType.TOKEN_KEYWORD_FALSE

mutual

/-- Definition `parseProgram` from `parser.c`: right-leaning cons-cells of
statements; orphan delimiters are skipped; at `EOF` the terminal (empty)
`AST_PROGRAM` node closes the chain. -/
def parseProgram (fuel : Nat) (p : ParserState) : Option (ASTNode × ParserState) :=
  match fuel with
  | 0 => none
  | fuel + 1 =>
    if matchTokenType p TokenType.TOKEN_EOF then
      some (initASTNode ASTNodeType.AST_PROGRAM none, p)
    else if matchTokenType p TokenType.TOKEN_DELIMITER then
      parseProgram fuel (advanceParser p)
    else
      match parseStatement fuel p with
      | none => none
      | some (stmt, p) =>
        if !matchTokenType p TokenType.TOKEN_EOF then
          match parseProgram fuel p with
          | none => none
          | some (rest, p) =>
            some ((initASTNode ASTNodeType.AST_PROGRAM none).withLeft (some stmt)
              |>.withRight (some rest), p)
        else
          some ((initASTNode ASTNodeType.AST_PROGRAM none).withLeft (some stmt)
            |>.withRight (some (initASTNode ASTNodeType.AST_PROGRAM none)), p)

/-- Definition `parseStatement` from `parser.c`: dispatch on the leading
token. -/
def parseStatement (fuel : Nat) (p : ParserState) : Option (ASTNode × ParserState) :=
  match fuel with
  | 0 => none
  | fuel + 1 =>
    if matchTokenType p TokenType.TOKEN_KEYWORD_VAR ||
       matchTokenType p TokenType.TOKEN_KEYWORD_LET then
      parseDeclaration fuel p
    else if matchTokenType p TokenType.TOKEN_KEYWORD_FUNC then
      parseFunctionDefinition fuel p
    else if matchTokenType p TokenType.TOKEN_KEYWORD_RETURN then
      parseReturnStatement fuel p
    else if matchTokenType p TokenType.TOKEN_KEYWORD_IF then
      parseConditionalStatement fuel p
    else if matchTokenType p TokenType.TOKEN_KEYWORD_REPEAT then
      parseRepeatUntilStatement fuel p
    else if matchTokenType p TokenType.TOKEN_KEYWORD_FOR then
      parseForInStatement fuel p
    else if isExpression p then
      parseExpression fuel p
    else
      parseErrorExit fuel ParseError.PARSE_ERROR_UNRESOLVABLE (some p.currentToken) p

/-- Definition `parseDeclaration` from `parser.c`. -/
def parseDeclaration (fuel : Nat) (p : ParserState) : Option (ASTNode × ParserState) :=
  match fuel with
  | 0 => none
  | fuel + 1 =>
    let root := if p.currentToken.tokenType = TokenType.TOKEN_KEYWORD_VAR then
      initASTNode ASTNodeType.AST_VARIABLE_DECLARATION (some p.currentToken)
    else
      initASTNode ASTNodeType.AST_CONSTANT_DECLARATION (some p.currentToken)
    let p := advanceParser p
    if !matchTokenType p TokenType.TOKEN_IDENTIFIER then
      parseErrorExit fuel ParseError.PARSE_ERROR_MISSING_IDENTIFIER root.token p
    else
      let identifierNode := initASTNode ASTNodeType.AST_IDENTIFIER (some p.currentToken)
      let p := advanceParser p
      if !matchTokenType p TokenType.TOKEN_COLON then
        parseErrorExit fuel ParseError.PARSE_ERROR_MISSING_TYPE_ANNOT identifierNode.token p
      else
        let p := advanceParser p
        if !matchTokenType p TokenType.TOKEN_IDENTIFIER then
          parseErrorExit fuel ParseError.PARSE_ERROR_MISSING_TYPE_NAME (some p.currentToken) p
        else
          let typeAnnotNode := initASTNode ASTNodeType.AST_TYPE_ANNOT (some p.currentToken)
          let root := (root.withLeft (some identifierNode)).withRight (some typeAnnotNode)
          let p := advanceParser p
          if matchTokenType p TokenType.TOKEN_DELIMITER then
            some (root, advanceParser p)
          else if matchTokenType p TokenType.TOKEN_ASSIGNMENT_OPERATOR then
            parseAssignmentStatement fuel p root
          else
            parseErrorExit fuel ParseError.PARSE_ERROR_MISSING_DELIMITER typeAnnotNode.token p

/-- Definition `parseAssignmentStatement` from `parser.c`: the given left
value becomes the left child, the parsed expression the right child; a
trailing delimiter is required. -/
def parseAssignmentStatement (fuel : Nat) (p : ParserState) (leftValue : ASTNode) :
    Option (ASTNode × ParserState) :=
  match fuel with
  | 0 => none
  | fuel + 1 =>
    let root := initASTNode ASTNodeType.AST_ASSIGNMENT_STATEMENT (some p.currentToken)
    let p := advanceParser p
    match parseExpression fuel p with
    | none => none
    | some (rhs, p) =>
      let root := (root.withLeft (some leftValue)).withRight (some rhs)
      if !matchTokenType p TokenType.TOKEN_DELIMITER then
        parseErrorExit fuel ParseError.PARSE_ERROR_MISSING_DELIMITER rhs.token p
      else
        some (root, advanceParser p)

/-- Definition `parseFunctionDefinition` from `parser.c`. -/
def parseFunctionDefinition (fuel : Nat) (p : ParserState) : Option (ASTNode × ParserState) :=
  match fuel with
  | 0 => none
  | fuel + 1 =>
    let functionDefinitionNode :=
      initASTNode ASTNodeType.AST_FUNCTION_DEFINITION (some p.currentToken)
    let p := advanceParser p
    if !matchTokenType p TokenType.TOKEN_IDENTIFIER then
      parseErrorExit fuel ParseError.PARSE_ERROR_MISSING_FUNCTION_NAME
        functionDefinitionNode.token p
    else
      let nameNode := initASTNode ASTNodeType.AST_IDENTIFIER (some p.currentToken)
      let functionDefinitionNode := functionDefinitionNode.withLeft (some nameNode)
      let p := advanceParser p
      if !matchTokenType p TokenType.TOKEN_OPENING_BRACKET then
        parseErrorExit fuel ParseError.PARSE_ERROR_MISSING_OPENING_BRACKET nameNode.token p
      else
        let p := advanceParser p
        match (if !matchTokenType p TokenType.TOKEN_CLOSING_BRACKET then
                 parseParameterList fuel p
               else
                 some (initASTNode ASTNodeType.AST_PARAMETER_LIST none, p)) with
        | none => none
        | some (parameterListNode, p) =>
          let p := advanceParser p
          if !matchTokenType p TokenType.TOKEN_RIGHT_ARROW then
            parseErrorExit fuel ParseError.PARSE_ERROR_MISSING_RIGHT_ARROW
              (some p.currentToken) p
          else
            let p := advanceParser p
            if !matchTokenType p TokenType.TOKEN_IDENTIFIER then
              parseErrorExit fuel ParseError.PARSE_ERROR_MISSING_RETURN_TYPE
                (some p.currentToken) p
            else
              let functionSignatureNode :=
                ((initASTNode ASTNodeType.AST_FUNCTION_SIGNATURE none).withLeft
                  (some parameterListNode)).withRight
                  (some (initASTNode ASTNodeType.AST_FUNCTION_RETURN_TYPE
                    (some p.currentToken)))
              let functionDefinitionNode :=
                functionDefinitionNode.withRight (some functionSignatureNode)
              let p := advanceParser p
              if matchTokenType p TokenType.TOKEN_OPENING_CURLY_BRACKET then
                match parseCodeBlock fuel p with
                | none => none
                | some (block, p) =>
                  some (((initASTNode ASTNodeType.AST_FUNCTION_IMPLEMENTATION none).withLeft
                    (some functionDefinitionNode)).withRight (some block), p)
              else
                some (functionDefinitionNode, p)

/-- Definition `parseParameterList` from `parser.c`. -/
def parseParameterList (fuel : Nat) (p : ParserState) : Option (ASTNode × ParserState) :=
  match fuel with
  | 0 => none
  | fuel + 1 =>
    if !matchTokenType p TokenType.TOKEN_IDENTIFIER then
      parseErrorExit fuel ParseError.PARSE_ERROR_MISSING_PARAMETER_LABEL
        (some p.currentToken) p
    else
      let parameterLabelNode :=
        initASTNode ASTNodeType.AST_PARAMETER_LABEL (some p.currentToken)
      let p := advanceParser p
      if !matchTokenType p TokenType.TOKEN_COLON then
        parseErrorExit fuel ParseError.PARSE_ERROR_MISSING_COLON_AFTER_LABEL
          parameterLabelNode.token p
      else
        let p := advanceParser p
        if !matchTokenType p TokenType.TOKEN_IDENTIFIER then
          parseErrorExit fuel ParseError.PARSE_ERROR_MISSING_TYPE_NAME
            (some p.currentToken) p
        else
          let parameterNode :=
            ((initASTNode ASTNodeType.AST_PARAMETER none).withLeft
              (some parameterLabelNode)).withRight
              (some (initASTNode ASTNodeType.AST_TYPE_ANNOT (some p.currentToken)))
          let p := advanceParser p
          if matchTokenType p TokenType.TOKEN_COMMA then
            match parseParameterList fuel (advanceParser p) with
            | none => none
            | some (rest, p) =>
              some (((initASTNode ASTNodeType.AST_PARAMETER_LIST none).withLeft
                (some parameterNode)).withRight (some rest), p)
          else
            some (((initASTNode ASTNodeType.AST_PARAMETER_LIST none).withLeft
              (some parameterNode)).withRight
              (some (initASTNode ASTNodeType.AST_PARAMETER_LIST none)), p)

/-- Loop body of `parseCodeBlock` from `parser.c`: cons-cells of statements
until the closing curly bracket (or `EOF`), which is then consumed without
checking. -/
def parseCodeBlockLoop (fuel : Nat) (p : ParserState) : Option (ASTNode × ParserState) :=
  match fuel with
  | 0 => none
  | fuel + 1 =>
    if !matchTokenType p TokenType.TOKEN_CLOSING_CURLY_BRACKET &&
       !matchTokenType p TokenType.TOKEN_EOF then
      if matchTokenType p TokenType.TOKEN_DELIMITER then
        parseCodeBlockLoop fuel (advanceParser p)
      else
        match parseStatement fuel p with
        | none => none
        | some (stmt, p) =>
          match parseCodeBlockLoop fuel p with
          | none => none
          | some (rest, p) =>
            some (((initASTNode ASTNodeType.AST_CODE_BLOCK none).withLeft
              (some stmt)).withRight (some rest), p)
    else
      some (initASTNode ASTNodeType.AST_CODE_BLOCK none, advanceParser p)

/-- Definition `parseCodeBlock` from `parser.c`: consume the opening curly
bracket, then run the statement loop. -/
def parseCodeBlock (fuel : Nat) (p : ParserState) : Option (ASTNode × ParserState) :=
  match fuel with
  | 0 => none
  | fuel + 1 => parseCodeBlockLoop fuel (advanceParser p)

/-- Definition `parseReturnStatement` from `parser.c`. -/
def parseReturnStatement (fuel : Nat) (p : ParserState) : Option (ASTNode × ParserState) :=
  match fuel with
  | 0 => none
  | fuel + 1 =>
    let root := initASTNode ASTNodeType.AST_RETURN_STATEMENT (some p.currentToken)
    let p := advanceParser p
    match (if !matchTokenType p TokenType.TOKEN_DELIMITER then
             match parseExpression fuel p with
             | none => none
             | some (e, p) => some (root.withLeft (some e), p)
           else some (root, p)) with
    | none => none
    | some (root, p) =>
      if !matchTokenType p TokenType.TOKEN_DELIMITER then
        parseErrorExit fuel ParseError.PARSE_ERROR_MISSING_DELIMITER
          (root.left.bind ASTNode.token) p
      else
        some (root, advanceParser p)

/-- Delimiter-skipping loop between `}` and `else` in
`parseConditionalStatement` (and before `until` in the repeat-until
production) from `parser.c`. -/
def skipDelimiters (fuel : Nat) (p : ParserState) : Option ParserState :=
  match fuel with
  | 0 => none
  | fuel + 1 =>
    if matchTokenType p TokenType.TOKEN_DELIMITER then
      skipDelimiters fuel (advanceParser p)
    else some p

/-- Definition `parseConditionalStatement` from `parser.c`. -/
def parseConditionalStatement (fuel : Nat) (p : ParserState) : Option (ASTNode × ParserState) :=
  match fuel with
  | 0 => none
  | fuel + 1 =>
    let conditionalStatementNode :=
      initASTNode ASTNodeType.AST_CONDITIONAL_STATEMENT (some p.currentToken)
    let p := advanceParser p
    if !isExpression p then
      parseErrorExit fuel ParseError.PARSE_ERROR_MISSING_CONDITION
        conditionalStatementNode.token p
    else
      match parseExpression fuel p with
      | none => none
      | some (conditionNode, p) =>
        if !matchTokenType p TokenType.TOKEN_OPENING_CURLY_BRACKET then
          parseErrorExit fuel ParseError.PARSE_ERROR_MISSING_OPENING_CURLY_BRACKET
            (some p.currentToken) p
        else
          match parseCodeBlock fuel p with
          | none => none
          | some (codeBlockNode, p) =>
            match skipDelimiters fuel p with
            | none => none
            | some p =>
              if matchTokenType p TokenType.TOKEN_KEYWORD_ELSE then
                let p := advanceParser p
                if matchTokenType p TokenType.TOKEN_KEYWORD_IF then
                  match parseConditionalStatement fuel p with
                  | none => none
                  | some (elseNode, p) =>
                    let statementBodyNode :=
                      ((initASTNode ASTNodeType.AST_CONDITIONAL_BODY none).withLeft
                        (some codeBlockNode)).withRight (some elseNode)
                    some ((conditionalStatementNode.withLeft
                      (some conditionNode)).withRight (some statementBodyNode), p)
                else
                  if !matchTokenType p TokenType.TOKEN_OPENING_CURLY_BRACKET then
                    parseErrorExit fuel
                      ParseError.PARSE_ERROR_MISSING_OPENING_CURLY_BRACKET
                      (some p.currentToken) p
                  else
                    match parseCodeBlock fuel p with
                    | none => none
                    | some (elseBlock, p) =>
                      let statementBodyNode :=
                        ((initASTNode ASTNodeType.AST_CONDITIONAL_BODY none).withLeft
                          (some codeBlockNode)).withRight (some elseBlock)
                      some ((conditionalStatementNode.withLeft
                        (some conditionNode)).withRight (some statementBodyNode), p)
              else
                let statementBodyNode :=
                  (initASTNode ASTNodeType.AST_CONDITIONAL_BODY none).withLeft
                    (some codeBlockNode)
                some ((conditionalStatementNode.withLeft
                  (some conditionNode)).withRight (some statementBodyNode), p)

/-- Definition `parseRepeatUntilStatement` from `parser.c`: the trailing
delimiter may also be `EOF`. -/
def parseRepeatUntilStatement (fuel : Nat) (p : ParserState) : Option (ASTNode × ParserState) :=
  match fuel with
  | 0 => none
  | fuel + 1 =>
    let repeatUntilStatementNode :=
      initASTNode ASTNodeType.AST_REPEAT_UNTIL_STATEMENT (some p.currentToken)
    let p := advanceParser p
    if !matchTokenType p TokenType.TOKEN_OPENING_CURLY_BRACKET then
      parseErrorExit fuel ParseError.PARSE_ERROR_MISSING_OPENING_CURLY_BRACKET
        (some p.currentToken) p
    else
      match parseCodeBlock fuel p with
      | none => none
      | some (statementBodyNode, p) =>
        match skipDelimiters fuel p with
        | none => none
        | some p =>
          if !matchTokenType p TokenType.TOKEN_KEYWORD_UNTIL then
            parseErrorExit fuel ParseError.PARSE_ERROR_MISSING_UNTIL_CONDITION
              (some p.currentToken) p
          else
            let p := advanceParser p
            if !isExpression p then
              parseErrorExit fuel ParseError.PARSE_ERROR_MISSING_CONDITION
                (some p.currentToken) p
            else
              match parseExpression fuel p with
              | none => none
              | some (conditionNode, p) =>
                let root := (repeatUntilStatementNode.withLeft
                  (some conditionNode)).withRight (some statementBodyNode)
                if !matchTokenType p TokenType.TOKEN_DELIMITER &&
                   !matchTokenType p TokenType.TOKEN_EOF then
                  parseErrorExit fuel ParseError.PARSE_ERROR_MISSING_DELIMITER
                    conditionNode.token p
                else
                  some (root, advanceParser p)

/-- Definition `parseForInStatement` from `parser.c`. -/
def parseForInStatement (fuel : Nat) (p : ParserState) : Option (ASTNode × ParserState) :=
  match fuel with
  | 0 => none
  | fuel + 1 =>
    let forInStatementNode :=
      initASTNode ASTNodeType.AST_FOR_IN_STATEMENT (some p.currentToken)
    let p := advanceParser p
    if !matchTokenType p TokenType.TOKEN_IDENTIFIER then
      parseErrorExit fuel ParseError.PARSE_ERROR_MISSING_IDENTIFIER
        forInStatementNode.token p
    else
      let identifierNode := initASTNode ASTNodeType.AST_IDENTIFIER (some p.currentToken)
      let p := advanceParser p
      if !matchTokenType p TokenType.TOKEN_KEYWORD_IN then
        parseErrorExit fuel ParseError.PARSE_ERROR_MISSING_IN_STATEMENT
          identifierNode.token p
      else
        let p := advanceParser p
        if !isExpression p then
          parseErrorExit fuel ParseError.PARSE_ERROR_MISSING_IDENTIFIER
            (some p.currentToken) p
        else
          match parseExpression fuel p with
          | none => none
          | some (iterableNode, p) =>
            if !matchTokenType p TokenType.TOKEN_OPENING_CURLY_BRACKET then
              parseErrorExit fuel ParseError.PARSE_ERROR_MISSING_OPENING_CURLY_BRACKET
                iterableNode.token p
            else
              let forInContextNode :=
                ((initASTNode ASTNodeType.AST_FOR_IN_CONTEXT none).withLeft
                  (some identifierNode)).withRight (some iterableNode)
              match parseCodeBlock fuel p with
              | none => none
              | some (statementBodyNode, p) =>
                some ((forInStatementNode.withLeft
                  (some forInContextNode)).withRight (some statementBodyNode), p)

/-- Definition `parseExpression` from `parser.c`: entry at the lowest
precedence level. -/
def parseExpression (fuel : Nat) (p : ParserState) : Option (ASTNode × ParserState) :=
  match fuel with
  | 0 => none
  | fuel + 1 => parseLogicalOr fuel p

/-- While-loop of `parseLogicalOr` from `parser.c` (left-associative
folding of `||`). -/
def parseLogicalOrLoop (fuel : Nat) (p : ParserState) (root : ASTNode) :
    Option (ASTNode × ParserState) :=
  match fuel with
  | 0 => none
  | fuel + 1 =>
    if matchTokenType p TokenType.TOKEN_LOGICAL_OR_OPERATOR then
      let binaryNode := initASTNode ASTNodeType.AST_BINARY_EXPRESSION (some p.currentToken)
      let p := advanceParser p
      match parseLogicalAnd fuel p with
      | none => none
      | some (rhs, p) =>
        parseLogicalOrLoop fuel p ((binaryNode.withLeft (some root)).withRight (some rhs))
    else some (root, p)

/-- Definition `parseLogicalOr` from `parser.c`. -/
def parseLogicalOr (fuel : Nat) (p : ParserState) : Option (ASTNode × ParserState) :=
  match fuel with
  | 0 => none
  | fuel + 1 =>
    match parseLogicalAnd fuel p with
    | none => none
    | some (root, p) => parseLogicalOrLoop fuel p root

/-- While-loop of `parseLogicalAnd` from `parser.c`. -/
def parseLogicalAndLoop (fuel : Nat) (p : ParserState) (root : ASTNode) :
    Option (ASTNode × ParserState) :=
  match fuel with
  | 0 => none
  | fuel + 1 =>
    if matchTokenType p TokenType.TOKEN_LOGICAL_AND_OPERATOR then
      let binaryNode := initASTNode ASTNodeType.AST_BINARY_EXPRESSION (some p.currentToken)
      let p := advanceParser p
      match parseComparison fuel p with
      | none => none
      | some (rhs, p) =>
        parseLogicalAndLoop fuel p ((binaryNode.withLeft (some root)).withRight (some rhs))
    else some (root, p)

/-- Definition `parseLogicalAnd` from `parser.c`. -/
def parseLogicalAnd (fuel : Nat) (p : ParserState) : Option (ASTNode × ParserState) :=
  match fuel with
  | 0 => none
  | fuel + 1 =>
    match parseComparison fuel p with
    | none => none
    | some (root, p) => parseLogicalAndLoop fuel p root

/-- Comparison-operator test of the while-loop in `parseComparison`. -/
def isComparisonOperator (p : ParserState) : Bool :=
  matchTokenType p TokenType.TOKEN_LESS_THAN_OPERATOR ||
  matchTokenType p TokenType.TOKEN_GREATER_THAN_OPERATOR ||
  matchTokenType p TokenType.TOKEN_LESS_OR_EQUAL_TO_OPERATOR ||
  matchTokenType p TokenType.TOKEN_GREATER_OR_EQUAL_TO_OPERATOR ||
  matchTokenType p TokenType.TOKEN_LOGICAL_EQUIVALENCE ||
  matchTokenType p TokenType.TOKEN_NOT_EQUAL_TO_OPERATOR

/-- While-loop of `parseComparison` from `parser.c`. -/
def parseComparisonLoop (fuel : Nat) (p : ParserState) (root : ASTNode) :
    Option (ASTNode × ParserState) :=
  match fuel with
  | 0 => none
  | fuel + 1 =>
    if isComparisonOperator p then
      let binaryNode := initASTNode ASTNodeType.AST_BINARY_EXPRESSION (some p.currentToken)
      let p := advanceParser p
      match parseAddition fuel p with
      | none => none
      | some (rhs, p) =>
        parseComparisonLoop fuel p ((binaryNode.withLeft (some root)).withRight (some rhs))
    else some (root, p)

/-- Definition `parseComparison` from `parser.c`. -/
def parseComparison (fuel : Nat) (p : ParserState) : Option (ASTNode × ParserState) :=
  match fuel with
  | 0 => none
  | fuel + 1 =>
    match parseAddition fuel p with
    | none => none
    | some (root, p) => parseComparisonLoop fuel p root

/-- While-loop of `parseAddition` from `parser.c`. -/
def parseAdditionLoop (fuel : Nat) (p : ParserState) (root : ASTNode) :
    Option (ASTNode × ParserState) :=
  match fuel with
  | 0 => none
  | fuel + 1 =>
    if matchTokenType p TokenType.TOKEN_ARITHMETIC_ADDITION ||
       matchTokenType p TokenType.TOKEN_ARITHMETIC_SUBTRACTION then
      let binaryNode := initASTNode ASTNodeType.AST_BINARY_EXPRESSION (some p.currentToken)
      let p := advanceParser p
      match parseMultiplication fuel p with
      | none => none
      | some (rhs, p) =>
        parseAdditionLoop fuel p ((binaryNode.withLeft (some root)).withRight (some rhs))
    else some (root, p)

/-- Definition `parseAddition` from `parser.c`: multiplicative operands
folded left-associatively under `+` and `-`. -/
def parseAddition (fuel : Nat) (p : ParserState) : Option (ASTNode × ParserState) :=
  match fuel with
  | 0 => none
  | fuel + 1 =>
    match parseMultiplication fuel p with
    | none => none
    | some (root, p) => parseAdditionLoop fuel p root

/-- While-loop of `parseMultiplication` from `parser.c`. -/
def parseMultiplicationLoop (fuel : Nat) (p : ParserState) (root : ASTNode) :
    Option (ASTNode × ParserState) :=
  match fuel with
  | 0 => none
  | fuel + 1 =>
    if matchTokenType p TokenType.TOKEN_ARITHMETIC_MULTIPLICATION ||
       matchTokenType p TokenType.TOKEN_ARITHMETIC_DIVISION ||
       matchTokenType p TokenType.TOKEN_ARITHMETIC_MODULO then
      let binaryNode := initASTNode ASTNodeType.AST_BINARY_EXPRESSION (some p.currentToken)
      let p := advanceParser p
      match parsePrefixExpression fuel p with
      | none => none
      | some (rhs, p) =>
        parseMultiplicationLoop fuel p
          ((binaryNode.withLeft (some root)).withRight (some rhs))
    else some (root, p)

/-- Definition `parseMultiplication` from `parser.c`. -/
def parseMultiplication (fuel : Nat) (p : ParserState) : Option (ASTNode × ParserState) :=
  match fuel with
  | 0 => none
  | fuel + 1 =>
    match parsePrefixExpression fuel p with
    | none => none
    | some (root, p) => parseMultiplicationLoop fuel p root

/-- Definition `parsePrefix` from `parser.c` (renamed
`parsePrefixExpression`): right-associative unary `-` and `!`. -/
def parsePrefixExpression (fuel : Nat) (p : ParserState) : Option (ASTNode × ParserState) :=
  match fuel with
  | 0 => none
  | fuel + 1 =>
    if matchTokenType p TokenType.TOKEN_LOGICAL_NEGATION ||
       matchTokenType p TokenType.TOKEN_ARITHMETIC_SUBTRACTION then
      let root := initASTNode ASTNodeType.AST_UNARY_EXPRESSION (some p.currentToken)
      let p := advanceParser p
      match parsePrefixExpression fuel p with
      | none => none
      | some (operand, p) => some (root.withLeft (some operand), p)
    else
      parsePostfixExpression fuel p

/-- While-loop of `parsePostfix` from `parser.c`: function calls and
factorials chain left-associatively. -/
def parsePostfixLoop (fuel : Nat) (p : ParserState) (root : ASTNode) :
    Option (ASTNode × ParserState) :=
  match fuel with
  | 0 => none
  | fuel + 1 =>
    if matchTokenType p TokenType.TOKEN_OPENING_BRACKET then
      match parseFunctionCall fuel p root with
      | none => none
      | some (root, p) => parsePostfixLoop fuel p root
    else if matchTokenType p TokenType.TOKEN_ARITHMETIC_FACTORIAL then
      let postfixNode :=
        (initASTNode ASTNodeType.AST_POSTFIX_EXPRESSION (some p.currentToken)).withLeft
          (some root)
      parsePostfixLoop fuel (advanceParser p) postfixNode
    else some (root, p)

/-- Definition `parsePostfix` from `parser.c` (renamed
`parsePostfixExpression`). -/
def parsePostfixExpression (fuel : Nat) (p : ParserState) : Option (ASTNode × ParserState) :=
  match fuel with
  | 0 => none
  | fuel + 1 =>
    match parsePrimary fuel p with
    | none => none
    | some (root, p) => parsePostfixLoop fuel p root

/-- Definition `parsePrimary` from `parser.c`: literals, identifiers
(turning into an assignment when followed by `=`), parenthesized
expressions (the closing bracket consumed without checking), and boolean
literals. -/
def parsePrimary (fuel : Nat) (p : ParserState) : Option (ASTNode × ParserState) :=
  match fuel with
  | 0 => none
  | fuel + 1 =>
    if matchTokenType p TokenType.TOKEN_NUMERIC ||
       matchTokenType p TokenType.TOKEN_STRING_LITERAL then
      some (initASTNode ASTNodeType.AST_LITERAL (some p.currentToken), advanceParser p)
    else if matchTokenType p TokenType.TOKEN_IDENTIFIER then
      let root := initASTNode ASTNodeType.AST_IDENTIFIER (some p.currentToken)
      let p := advanceParser p
      if matchTokenType p TokenType.TOKEN_ASSIGNMENT_OPERATOR then
        parseAssignmentStatement fuel p root
      else
        some (root, p)
    else if matchTokenType p TokenType.TOKEN_OPENING_BRACKET then
      let p := advanceParser p
      match parseExpression fuel p with
      | none => none
      | some (root, p) => some (root, advanceParser p)
    else if matchTokenType p TokenType.TOKEN_KEYWORD_TRUE ||
            matchTokenType p TokenType.TOKEN_KEYWORD_FALSE then
      some (initASTNode ASTNodeType.AST_BOOLEAN_LITERAL (some p.currentToken),
        advanceParser p)
    else
      parseErrorExit fuel ParseError.PARSE_ERROR_MISSING_OPERAND (some p.currentToken) p

/-- Definition `parseFunctionCall` from `parser.c`: the callee's token
anchors the call node; the closing bracket is consumed without checking. -/
def parseFunctionCall (fuel : Nat) (p : ParserState) (callee : ASTNode) :
    Option (ASTNode × ParserState) :=
  match fuel with
  | 0 => none
  | fuel + 1 =>
    let root := (initASTNode ASTNodeType.AST_FUNCTION_CALL callee.token).withLeft
      (some callee)
    let p := advanceParser p
    match (if !matchTokenType p TokenType.TOKEN_CLOSING_BRACKET then
             match parseArgumentList fuel p with
             | none => none
             | some (args, p) => some (some args, p)
           else some (none, p)) with
    | none => none
    | some (argumentListNode, p) =>
      some (root.withRight argumentListNode, advanceParser p)

/-- Definition `parseArgumentList` from `parser.c`. -/
def parseArgumentList (fuel : Nat) (p : ParserState) : Option (ASTNode × ParserState) :=
  match fuel with
  | 0 => none
  | fuel + 1 =>
    if !matchTokenType p TokenType.TOKEN_IDENTIFIER then
      parseErrorExit fuel ParseError.PARSE_ERROR_MISSING_ARGUMENT_LABEL
        (some p.currentToken) p
    else
      let argumentLabelNode :=
        initASTNode ASTNodeType.AST_ARGUMENT_LABEL (some p.currentToken)
      let p := advanceParser p
      if !matchTokenType p TokenType.TOKEN_COLON then
        parseErrorExit fuel ParseError.PARSE_ERROR_MISSING_COLON_AFTER_LABEL
          argumentLabelNode.token p
      else
        let p := advanceParser p
        if !isExpression p then
          parseErrorExit fuel ParseError.PARSE_ERROR_MISSING_ARGUMENT
            (some p.currentToken) p
        else
          match parseExpression fuel p with
          | none => none
          | some (e, p) =>
            let argumentNode :=
              ((initASTNode ASTNodeType.AST_ARGUMENT none).withLeft
                (some argumentLabelNode)).withRight (some e)
            if matchTokenType p TokenType.TOKEN_COMMA then
              match parseArgumentList fuel (advanceParser p) with
              | none => none
              | some (rest, p) =>
                some (((initASTNode ASTNodeType.AST_ARGUMENT_LIST none).withLeft
                  (some argumentNode)).withRight (some rest), p)
            else
              some (((initASTNode ASTNodeType.AST_ARGUMENT_LIST none).withLeft
                (some argumentNode)).withRight
                (some (initASTNode ASTNodeType.AST_ARGUMENT_LIST none)), p)

end

/-- Definition `initParser` from `parser.c` combined with fetching the
first token (the driver calls `advanceParser` once before parsing). -/
def initParserState (sourceCode : List Char) : ParserState :=
  let r := getNextToken initLexer sourceCode
  { lexer := r.2.1
    sourceCode := r.2.2
    currentToken := r.1
    parseError := ParseError.PARSE_ERROR_NONE
    diagnosticToken := none
    errors := [] }

/-- End-to-end parse of a byte stream: initialize the parser on the stream
and parse a program. -/
def parseOpus (fuel : Nat) (sourceCode : List Char) : Option (ASTNode × ParserState) :=
  parseProgram fuel (initParserState sourceCode)

/-- Semantic analyzer error kinds, from `analyzer.h`. -/
inductive AnalyzerError where
  | ANALYZER_ERROR_NONE
  | ANALYZER_ERROR_UNDECLARED_VARIABLE
  | ANALYZER_ERROR_REDECLARED_VARIABLE
  | ANALYZER_ERROR_IMMUTABLE_MODIFICATION
  | ANALYZER_ERROR_OPERATION_TYPE_MISSMATCH
  | ANALYZER_ERROR_INVALID_CONDITION
deriving DecidableEq, Repr

/-- OpusSymbol record, from `symbol.h` (`namespaceLevel` renames the C field
`namespace`, a Lean keyword; `symbolValue` is the value union written by
`analyzer.c`, modelled like `NodeValue`). -/
structure OpusSymbol where
  identifier : List Char
  type : List Char
  namespaceLevel : Int
  hasInitialized : Bool
  isMutable : Bool
  declarationLocation : Location
  symbolValue : NodeValue
deriving DecidableEq, Repr

/-- OpusSymbol table, from `symbol.h`: current namespace counter and the
linked list of symbols (`symbols.head?` is `headSymbol`). -/
structure SymbolTable where
  currentNamespace : Int
  symbols : List OpusSymbol
deriving DecidableEq, Repr

/-- Definition `initSymbolTable` from `analyzer.c`. -/
def initSymbolTable : SymbolTable :=
  { currentNamespace := 0, symbols := [] }

/-- Definition `addSymbol` from `analyzer.c`: head-insert a fresh symbol at
the current namespace, uninitialized and immutable by default. -/
def addSymbol (symbolTable : SymbolTable) (identifier type : List Char)
    (location : Location) : SymbolTable :=
  { symbolTable with symbols :=
      { identifier := identifier
        type := type
        namespaceLevel := symbolTable.currentNamespace
        hasInitialized := false
        isMutable := false
        declarationLocation := location
        symbolValue := uninitNodeValue } :: symbolTable.symbols }

/-- Definition `lookupSymbol` from `analyzer.c`: first list entry with the
given identifier. -/
def lookupSymbol (symbolTable : SymbolTable) (identifier : List Char) :
    Option OpusSymbol :=
  symbolTable.symbols.find? (fun s => s.identifier = identifier)

/-- Definition `lookupSymbolFromCurrentNamespace` from `analyzer.c`: first
list entry with the given identifier whose namespace is less than or equal
to the current namespace. -/
def lookupSymbolFromCurrentNamespace (symbolTable : SymbolTable)
    (identifier : List Char) : Option OpusSymbol :=
  symbolTable.symbols.find? (fun s =>
    s.identifier = identifier && s.namespaceLevel ≤ symbolTable.currentNamespace)

/-- Update through the pointer returned by
`lookupSymbolFromCurrentNamespace`: apply `f` to the first list entry
matching the lookup predicate. -/
def updateSymbolFromCurrentNamespace (symbolTable : SymbolTable)
    (identifier : List Char) (f : OpusSymbol → OpusSymbol) : SymbolTable :=
  { symbolTable with symbols := go symbolTable.symbols }
where
  go : List OpusSymbol → List OpusSymbol
  | [] => []
  | s :: rest =>
    if s.identifier = identifier && s.namespaceLevel ≤ symbolTable.currentNamespace
    then f s :: rest
    else s :: go rest

/-- Definition `enterNamespace` from `analyzer.c`. -/
def enterNamespace (symbolTable : SymbolTable) : SymbolTable :=
  { symbolTable with currentNamespace := symbolTable.currentNamespace + 1 }

/-- Definition `removeSymbolsFromCurrentNamespace` from `analyzer.c`:
drop every symbol whose namespace equals the current one (the display of
each removed symbol is printing only). -/
def removeSymbolsFromCurrentNamespace (symbolTable : SymbolTable) : SymbolTable :=
  { symbolTable with symbols :=
      symbolTable.symbols.filter (fun s =>
        !(s.namespaceLevel = symbolTable.currentNamespace)) }

/-- Definition `exitNamespace` from `analyzer.c`: remove the symbols of the
current namespace, then decrement the counter unless it is already 0. -/
def exitNamespace (symbolTable : SymbolTable) : SymbolTable :=
  let symbolTable := removeSymbolsFromCurrentNamespace symbolTable
  if symbolTable.currentNamespace > 0 then
    { symbolTable with currentNamespace := symbolTable.currentNamespace - 1 }
  else symbolTable

/-- Analyzer state, from `analyzer.h`; `reports` records every
`reportAnalyzerError` call (the C code prints a diagnostic there). -/
structure Analyzer where
  symbolTable : SymbolTable
  analyzerError : AnalyzerError
  reports : List AnalyzerError
deriving DecidableEq, Repr

/-- Definition `initAnalyzer` from `analyzer.c`. -/
def initAnalyzer (symbolTable : SymbolTable) : Analyzer :=
  { symbolTable := symbolTable
    analyzerError := AnalyzerError.ANALYZER_ERROR_NONE
    reports := [] }

/-- Definition `reportAnalyzerError` from `analyzer.c`: prints one
diagnostic for the current error; modelled by appending to the trace (the
node argument only feeds the printed text). -/
def reportAnalyzerError (analyzer : Analyzer) (node : ASTNode) : Analyzer :=
  { analyzer with reports := analyzer.reports ++ [analyzer.analyzerError] }

/-- Definition `isNumeric` from `analyzer.c`. -/
def isNumeric (type : List Char) : Bool :=
  type = "Int".toList || type = "Float".toList

/-- C `atoi` restricted to its defined behaviour: optional leading
whitespace, an optional sign, then a run of digits (stopping at the first
non-digit). -/
def atoiC (s : List Char) : Int :=
  let s := s.dropWhile (fun c =>
    c = ' ' || c = '\t' || c = '\n' || c = '\x0b' || c = '\x0c' || c = '\r')
  match s with
  | '-' :: rest => - (digitsVal rest 0)
  | '+' :: rest => digitsVal rest 0
  | rest => digitsVal rest 0
where
  digitsVal : List Char → Int → Int
  | [], acc => acc
  | c :: rest, acc =>
    if isdigitC c then digitsVal rest (acc * 10 + ((c.toNat : Int) - ('0'.toNat : Int)))
    else acc

/-- Iterative factorial of `foldUnaryExpression` from `analyzer.c`:
`result = 1; for (term = 1; term <= number; term++) result *= term`. -/
def factorialC (number : Int) : Int :=
  ((List.range number.toNat).foldl (fun acc term => acc * ((term : Int) + 1)) 1)

/-- Comparison placeholder for C `float` comparisons inside constant
folding: only the exactly-representable case of two integer-valued floats
is given meaning; no claim depends on any other case. -/
def cfloatLess (a b : CFloat) : Bool :=
  match a, b with
  | CFloat.ofInt m, CFloat.ofInt n => m < n
  | _, _ => false

/-- Equality placeholder for C `float` equality inside constant folding;
only the integer-valued case is given meaning. -/
def cfloatEq (a b : CFloat) : Bool :=
  match a, b with
  | CFloat.ofInt m, CFloat.ofInt n => m = n
  | _, _ => false

/-- Token kind of a node's anchor token (the C code dereferences
`node->token` unconditionally; parser-produced nodes of the analyzed kinds
always carry one). -/
def ASTNode.tokType (node : ASTNode) : TokenType :=
  (node.token.map Token.tokenType).getD TokenType.TOKEN_ERROR

/-- Lexeme of a node's anchor token. -/
def ASTNode.tokLexeme (node : ASTNode) : List Char :=
  (node.token.map Token.lexeme).getD []

/-- Test for the five arithmetic binary operators in `analyzer.c`. -/
def isArithmeticOperatorToken (t : TokenType) : Bool :=
  t = TokenType.TOKEN_ARITHMETIC_ADDITION ||
  t = TokenType.TOKEN_ARITHMETIC_SUBTRACTION ||
  t = TokenType.TOKEN_ARITHMETIC_MULTIPLICATION ||
  t = TokenType.TOKEN_ARITHMETIC_DIVISION ||
  t = TokenType.TOKEN_ARITHMETIC_MODULO

/-- Definition `foldBinaryExpression` from `analyzer.c`: compute the folded
value of a binary node from its (already analyzed) children. Integer
division and modulo use the C truncated semantics (`Int.tdiv`/`Int.tmod`;
division by zero is undefined behaviour in C and excluded by the theorems
that use this definition). -/
def foldBinaryExpression (node : ASTNode) : ASTNode :=
  let op := node.tokType
  let lhs := (node.left).getD ASTNode.null
  let rhs := (node.right).getD ASTNode.null
  if isArithmeticOperatorToken op then
    let isFloat := lhs.inferredType = "Float".toList || rhs.inferredType = "Float".toList
    if isFloat then
      let lhsValue := if lhs.inferredType = "Float".toList then
        lhs.nodeValue.floatingValue else CFloat.ofInt lhs.nodeValue.integerValue
      let rhsValue := if rhs.inferredType = "Float".toList then
        rhs.nodeValue.floatingValue else CFloat.ofInt rhs.nodeValue.integerValue
      let result :=
        if op = TokenType.TOKEN_ARITHMETIC_ADDITION then CFloat.add lhsValue rhsValue
        else if op = TokenType.TOKEN_ARITHMETIC_SUBTRACTION then CFloat.sub lhsValue rhsValue
        else if op = TokenType.TOKEN_ARITHMETIC_MULTIPLICATION then CFloat.mul lhsValue rhsValue
        else if op = TokenType.TOKEN_ARITHMETIC_DIVISION then CFloat.divf lhsValue rhsValue
        else CFloat.fmodf lhsValue rhsValue
      ((node.withFoldable true).withValue
        { node.nodeValue with floatingValue := result }).withInferredType "Float".toList
    else
      let lhsValue := lhs.nodeValue.integerValue
      let rhsValue := rhs.nodeValue.integerValue
      let result :=
        if op = TokenType.TOKEN_ARITHMETIC_ADDITION then lhsValue + rhsValue
        else if op = TokenType.TOKEN_ARITHMETIC_SUBTRACTION then lhsValue - rhsValue
        else if op = TokenType.TOKEN_ARITHMETIC_MULTIPLICATION then lhsValue * rhsValue
        else if op = TokenType.TOKEN_ARITHMETIC_DIVISION then Int.tdiv lhsValue rhsValue
        else Int.tmod lhsValue rhsValue
      ((node.withFoldable true).withValue
        { node.nodeValue with integerValue := result }).withInferredType "Int".toList
  else if op = TokenType.TOKEN_LOGICAL_AND_OPERATOR ||
          op = TokenType.TOKEN_LOGICAL_OR_OPERATOR then
    let node := node.withInferredType "Bool".toList
    if lhs.isFoldable && rhs.isFoldable then
      let result := if op = TokenType.TOKEN_LOGICAL_AND_OPERATOR then
        lhs.nodeValue.booleanValue && rhs.nodeValue.booleanValue
      else lhs.nodeValue.booleanValue || rhs.nodeValue.booleanValue
      (node.withValue { node.nodeValue with booleanValue := result }).withFoldable true
    else node
  else if op = TokenType.TOKEN_LOGICAL_EQUIVALENCE ||
          op = TokenType.TOKEN_NOT_EQUAL_TO_OPERATOR then
    let node := node.withInferredType "Bool".toList
    let result :=
      if lhs.inferredType = "Int".toList then
        lhs.nodeValue.integerValue = rhs.nodeValue.integerValue
      else if lhs.inferredType = "Float".toList then
        cfloatEq lhs.nodeValue.floatingValue rhs.nodeValue.floatingValue
      else if lhs.inferredType = "Bool".toList then
        lhs.nodeValue.booleanValue = rhs.nodeValue.booleanValue
      else if lhs.inferredType = "String".toList then
        lhs.nodeValue.stringLiteral = rhs.nodeValue.stringLiteral
      else false
    let result := if op = TokenType.TOKEN_LOGICAL_EQUIVALENCE then result else !result
    (node.withValue { node.nodeValue with booleanValue := result }).withFoldable true
  else if op = TokenType.TOKEN_GREATER_THAN_OPERATOR ||
          op = TokenType.TOKEN_LESS_THAN_OPERATOR ||
          op = TokenType.TOKEN_GREATER_OR_EQUAL_TO_OPERATOR ||
          op = TokenType.TOKEN_LESS_OR_EQUAL_TO_OPERATOR then
    let node := node.withInferredType "Bool".toList
    let lhsValue := if lhs.inferredType = "Float".toList then
      lhs.nodeValue.floatingValue else CFloat.ofInt lhs.nodeValue.integerValue
    let rhsValue := if rhs.inferredType = "Float".toList then
      rhs.nodeValue.floatingValue else CFloat.ofInt rhs.nodeValue.integerValue
    let result :=
      if op = TokenType.TOKEN_GREATER_THAN_OPERATOR then cfloatLess rhsValue lhsValue
      else if op = TokenType.TOKEN_LESS_THAN_OPERATOR then cfloatLess lhsValue rhsValue
      else if op = TokenType.TOKEN_GREATER_OR_EQUAL_TO_OPERATOR then !cfloatLess lhsValue rhsValue
      else !cfloatLess rhsValue lhsValue
    (node.withValue { node.nodeValue with booleanValue := result }).withFoldable true
  else node

/-- Definition `foldUnaryExpression` from `analyzer.c`. -/
def foldUnaryExpression (node : ASTNode) : ASTNode :=
  let op := node.tokType
  let operand := (node.left).getD ASTNode.null
  if op = TokenType.TOKEN_ARITHMETIC_SUBTRACTION then
    if operand.inferredType = "Float".toList then
      ((node.withFoldable true).withValue
        { node.nodeValue with floatingValue := CFloat.neg operand.nodeValue.floatingValue
        }).withInferredType "Float".toList
    else if operand.inferredType = "Int".toList then
      ((node.withFoldable true).withValue
        { node.nodeValue with integerValue := - operand.nodeValue.integerValue
        }).withInferredType "Int".toList
    else node
  else if op = TokenType.TOKEN_LOGICAL_NEGATION then
    let node := if operand.isFoldable then
      (node.withFoldable true).withValue
        { node.nodeValue with booleanValue := !operand.nodeValue.booleanValue }
    else node
    node.withInferredType "Bool".toList
  else if op = TokenType.TOKEN_ARITHMETIC_FACTORIAL then
    ((node.withFoldable true).withValue
      { node.nodeValue with integerValue := factorialC operand.nodeValue.integerValue
      }).withInferredType "Int".toList
  else node

/-- Definition `analyzeExpression` from `analyzer.c`: annotate a node with
its inferred type, foldability and folded value, consulting the symbol
table for identifiers. Returns (C result, analyzer, annotated node). Note
two faithful quirks of the source: the keyword-comparison chain of the
identifier case uses raw `strcmp` results (truthy means *different*), and
a non-foldable logical / comparison node keeps the inferred type `"Any"`
because only the fold writes `"Bool"`. -/
def analyzeExpression (analyzer : Analyzer) :
    ASTNode → Bool × Analyzer × ASTNode
  | ASTNode.null => (true, analyzer, ASTNode.null)
  | ASTNode.mk t tk l r ty f v =>
    let node : ASTNode := ASTNode.mk t tk l r ty f v
    match t with
    | ASTNodeType.AST_BOOLEAN_LITERAL =>
      let node := (node.withInferredType "Bool".toList).withFoldable true
      let node := node.withValue
        { node.nodeValue with booleanValue := node.tokLexeme = "true".toList }
      (true, analyzer, node)
    | ASTNodeType.AST_LITERAL =>
      if node.tokType = TokenType.TOKEN_STRING_LITERAL then
        let node := (node.withInferredType "String".toList).withFoldable true
        let node := node.withValue
          { node.nodeValue with stringLiteral := node.tokLexeme }
        (true, analyzer, node)
      else if node.tokType = TokenType.TOKEN_NUMERIC then
        if node.tokLexeme.contains '.' then
          let node := (node.withInferredType "Float".toList).withFoldable true
          let node := node.withValue
            { node.nodeValue with floatingValue := CFloat.atofLexeme node.tokLexeme }
          (true, analyzer, node)
        else
          let node := (node.withInferredType "Int".toList).withFoldable true
          let node := node.withValue
            { node.nodeValue with integerValue := atoiC node.tokLexeme }
          (true, analyzer, node)
      else (true, analyzer, node)
    | ASTNodeType.AST_IDENTIFIER =>
      match lookupSymbolFromCurrentNamespace analyzer.symbolTable node.tokLexeme with
      | none =>
        let analyzer := { analyzer with
          analyzerError := AnalyzerError.ANALYZER_ERROR_UNDECLARED_VARIABLE }
        (false, reportAnalyzerError analyzer node, node)
      | some symbol =>
        let node := node.withInferredType symbol.type
        if symbol.hasInitialized then
          if symbol.type ≠ "String".toList then
            (true, analyzer, node.withValue
              { node.nodeValue with stringLiteral := symbol.symbolValue.stringLiteral })
          else
            (true, analyzer, node.withValue
              { node.nodeValue with floatingValue := symbol.symbolValue.floatingValue })
        else
          (true, analyzer, node.withFoldable false)
    | ASTNodeType.AST_BINARY_EXPRESSION =>
      match analyzeExpression analyzer l with
      | (false, analyzer, l') => (false, analyzer, node.withLeft (some l'))
      | (true, analyzer, l') =>
        match analyzeExpression analyzer r with
        | (false, analyzer, r') =>
          (false, analyzer, (node.withLeft (some l')).withRight (some r'))
        | (true, analyzer, r') =>
          let node := (node.withLeft (some l')).withRight (some r')
          let op := node.tokType
          if isArithmeticOperatorToken op then
            if !(isNumeric l'.inferredType) || !(isNumeric r'.inferredType) then
              let analyzer := { analyzer with
                analyzerError := AnalyzerError.ANALYZER_ERROR_OPERATION_TYPE_MISSMATCH }
              (false, reportAnalyzerError analyzer node, node)
            else
              let node := if l'.inferredType = "Float".toList ||
                             r'.inferredType = "Float".toList then
                node.withInferredType "Float".toList
              else node.withInferredType "Int".toList
              let node := if l'.isFoldable && r'.isFoldable then
                foldBinaryExpression node else node
              (true, analyzer, node)
          else if op = TokenType.TOKEN_LOGICAL_AND_OPERATOR ||
                  op = TokenType.TOKEN_LOGICAL_OR_OPERATOR then
            if l'.inferredType ≠ "Bool".toList || r'.inferredType ≠ "Bool".toList then
              let analyzer := { analyzer with
                analyzerError := AnalyzerError.ANALYZER_ERROR_OPERATION_TYPE_MISSMATCH }
              (false, reportAnalyzerError analyzer node, node)
            else
              let node := if l'.isFoldable && r'.isFoldable then
                foldBinaryExpression node else node
              (true, analyzer, node)
          else if op = TokenType.TOKEN_LOGICAL_EQUIVALENCE ||
                  op = TokenType.TOKEN_NOT_EQUAL_TO_OPERATOR then
            if l'.inferredType ≠ r'.inferredType then
              let analyzer := { analyzer with
                analyzerError := AnalyzerError.ANALYZER_ERROR_OPERATION_TYPE_MISSMATCH }
              (false, reportAnalyzerError analyzer node, node)
            else
              let node := if l'.isFoldable && r'.isFoldable then
                foldBinaryExpression node else node
              (true, analyzer, node)
          else if op = TokenType.TOKEN_GREATER_THAN_OPERATOR ||
                  op = TokenType.TOKEN_LESS_THAN_OPERATOR ||
                  op = TokenType.TOKEN_GREATER_OR_EQUAL_TO_OPERATOR ||
                  op = TokenType.TOKEN_LESS_OR_EQUAL_TO_OPERATOR then
            if !(isNumeric l'.inferredType && isNumeric r'.inferredType) then
              let analyzer := { analyzer with
                analyzerError := AnalyzerError.ANALYZER_ERROR_OPERATION_TYPE_MISSMATCH }
              (false, reportAnalyzerError analyzer node, node)
            else
              let node := if l'.isFoldable && r'.isFoldable then
                foldBinaryExpression node else node
              (true, analyzer, node)
          else
            let node := if l'.isFoldable && r'.isFoldable then
              foldBinaryExpression node else node
            (true, analyzer, node)
    | ASTNodeType.AST_UNARY_EXPRESSION =>
      match analyzeExpression analyzer l with
      | (false, analyzer, l') => (false, analyzer, node.withLeft (some l'))
      | (true, analyzer, l') =>
        let node := node.withLeft (some l')
        let op := node.tokType
        if op = TokenType.TOKEN_ARITHMETIC_SUBTRACTION then
          if !(isNumeric l'.inferredType) then
            let analyzer := { analyzer with
              analyzerError := AnalyzerError.ANALYZER_ERROR_OPERATION_TYPE_MISSMATCH }
            (false, reportAnalyzerError analyzer node, node)
          else
            let node := node.withInferredType l'.inferredType
            let node := if l'.isFoldable then foldUnaryExpression node else node
            (true, analyzer, node)
        else if op = TokenType.TOKEN_LOGICAL_NEGATION then
          if l'.inferredType ≠ "Bool".toList then
            let analyzer := { analyzer with
              analyzerError := AnalyzerError.ANALYZER_ERROR_OPERATION_TYPE_MISSMATCH }
            (false, reportAnalyzerError analyzer node, node)
          else
            let node := node.withInferredType "Bool".toList
            let node := if l'.isFoldable then foldUnaryExpression node else node
            (true, analyzer, node)
        else if op = TokenType.TOKEN_ARITHMETIC_FACTORIAL then
          if l'.inferredType ≠ "Int".toList then
            let analyzer := { analyzer with
              analyzerError := AnalyzerError.ANALYZER_ERROR_OPERATION_TYPE_MISSMATCH }
            (false, reportAnalyzerError analyzer node, node)
          else
            let node := node.withInferredType "Int".toList
            let node := if l'.isFoldable then foldUnaryExpression node else node
            (true, analyzer, node)
        else
          let node := if l'.isFoldable then foldUnaryExpression node else node
          (true, analyzer, node)
    | _ => (true, analyzer, node)

/-- Definition `analyzeDeclarationStatement` from `analyzer.c`: reject
when the identifier is already found by
`lookupSymbolFromCurrentNamespace`, otherwise insert the symbol and mark
it mutable exactly for `var` declarations. The node is not modified. -/
def analyzeDeclarationStatement (analyzer : Analyzer) (node : ASTNode) :
    Bool × Analyzer :=
  let identifier := ((node.left).getD ASTNode.null).tokLexeme
  let type := ((node.right).getD ASTNode.null).tokLexeme
  if (lookupSymbolFromCurrentNamespace analyzer.symbolTable identifier).isSome then
    let analyzer := { analyzer with
      analyzerError := AnalyzerError.ANALYZER_ERROR_REDECLARED_VARIABLE }
    (false, reportAnalyzerError analyzer ((node.left).getD ASTNode.null))
  else
    let table := addSymbol analyzer.symbolTable identifier type
      ((node.token.map Token.location).getD ⟨0, 0⟩)
    let table := if node.nodeType = ASTNodeType.AST_VARIABLE_DECLARATION then
      { table with symbols := match table.symbols with
        | [] => []
        | s :: rest => { s with isMutable := true } :: rest }
    else table
    (true, { analyzer with symbolTable := table })

/-- Remainder of `analyzeAssignmentStatement` from `analyzer.c` after the
target identifier has been resolved: lookup, mutability/initialization
check, right-hand-side analysis, type check, value propagation, and the
`hasInitialized` update through the looked-up symbol pointer. -/
def analyzeAssignmentTarget (analyzer : Analyzer) (node : ASTNode)
    (identifier : List Char) (result0 : Bool) : Bool × Analyzer × ASTNode :=
  match lookupSymbolFromCurrentNamespace analyzer.symbolTable identifier with
  | none =>
    let analyzer := { analyzer with
      analyzerError := AnalyzerError.ANALYZER_ERROR_UNDECLARED_VARIABLE }
    (false, reportAnalyzerError analyzer ((node.left).getD ASTNode.null), node)
  | some symbol =>
    if !symbol.isMutable && symbol.hasInitialized then
      let analyzer := { analyzer with
        analyzerError := AnalyzerError.ANALYZER_ERROR_IMMUTABLE_MODIFICATION }
      (false, reportAnalyzerError analyzer ((node.left).getD ASTNode.null), node)
    else
      let e := analyzeExpression analyzer ((node.right).getD ASTNode.null)
      let result := e.1 && result0
      let analyzer := e.2.1
      let right' := e.2.2
      let node := node.withRight (some right')
      if symbol.type ≠ right'.inferredType then
        let analyzer := { analyzer with
          analyzerError := AnalyzerError.ANALYZER_ERROR_OPERATION_TYPE_MISSMATCH }
        (false, reportAnalyzerError analyzer node, node)
      else
        let table := analyzer.symbolTable
        let table := if right'.isFoldable then
          if right'.inferredType = "Int".toList then
            updateSymbolFromCurrentNamespace table identifier (fun s =>
              { s with symbolValue :=
                { s.symbolValue with integerValue := right'.nodeValue.integerValue } })
          else if right'.inferredType = "Float".toList then
            updateSymbolFromCurrentNamespace table identifier (fun s =>
              { s with symbolValue :=
                { s.symbolValue with floatingValue := right'.nodeValue.floatingValue } })
          else if right'.inferredType = "Bool".toList then
            updateSymbolFromCurrentNamespace table identifier (fun s =>
              { s with symbolValue :=
                { s.symbolValue with booleanValue := right'.nodeValue.booleanValue } })
          else if right'.inferredType = "String".toList then
            updateSymbolFromCurrentNamespace table identifier (fun s =>
              { s with symbolValue :=
                { s.symbolValue with stringLiteral := right'.nodeValue.stringLiteral } })
          else table
        else table
        let table := updateSymbolFromCurrentNamespace table identifier (fun s =>
          { s with hasInitialized := true })
        (result, { analyzer with symbolTable := table }, node)

/-- Definition `analyzeAssignmentStatement` from `analyzer.c`: when the
left child is a declaration, analyze it first and take the freshly
inserted head symbol as the target, otherwise the left identifier. -/
def analyzeAssignmentStatement (analyzer : Analyzer) (node : ASTNode) :
    Bool × Analyzer × ASTNode :=
  let left := (node.left).getD ASTNode.null
  if left.nodeType = ASTNodeType.AST_VARIABLE_DECLARATION ||
     left.nodeType = ASTNodeType.AST_CONSTANT_DECLARATION then
    match analyzeDeclarationStatement analyzer left with
    | (false, analyzer) => (false, analyzer, node)
    | (true, analyzer) =>
      let identifier :=
        ((analyzer.symbolTable.symbols.head?).map OpusSymbol.identifier).getD []
      analyzeAssignmentTarget analyzer node identifier true
  else
    analyzeAssignmentTarget analyzer node left.tokLexeme true

mutual

/-- Definition `analyzeStatement` from `analyzer.c`: dispatch on the node
kind; everything else is vacuously successful. -/
def analyzeStatement (fuel : Nat) (analyzer : Analyzer) (node : ASTNode) :
    Option (Bool × Analyzer × ASTNode) :=
  match fuel with
  | 0 => none
  | fuel + 1 =>
    if node.nodeType = ASTNodeType.AST_VARIABLE_DECLARATION ||
       node.nodeType = ASTNodeType.AST_CONSTANT_DECLARATION then
      let r := analyzeDeclarationStatement analyzer node
      some (r.1, r.2, node)
    else if node.nodeType = ASTNodeType.AST_ASSIGNMENT_STATEMENT then
      some (analyzeAssignmentStatement analyzer node)
    else if node.nodeType = ASTNodeType.AST_CONDITIONAL_STATEMENT then
      analyzeConditionalStatement fuel analyzer node
    else
      some (true, analyzer, node)

/-- Statement chain of `analyzeCodeBlock` from `analyzer.c`: the while
loop follows `statement = statement->right` starting from a block cell's
left child. -/
def analyzeStatementChain (fuel : Nat) (analyzer : Analyzer) (stmt : ASTNode) :
    Option (Bool × Analyzer × ASTNode) :=
  match fuel with
  | 0 => none
  | fuel + 1 =>
    match stmt with
    | ASTNode.null => some (true, analyzer, ASTNode.null)
    | _ =>
      match analyzeStatement fuel analyzer stmt with
      | none => none
      | some (r1, analyzer, stmt') =>
        match analyzeStatementChain fuel analyzer ((stmt'.right).getD ASTNode.null) with
        | none => none
        | some (r2, analyzer, rest') =>
          some (r2 && r1, analyzer, stmt'.withRight (some rest'))

/-- Definition `analyzeCodeBlock` from `analyzer.c`: process the statement
chain hanging off the cell's left child, then recurse into the right
block cell. -/
def analyzeCodeBlock (fuel : Nat) (analyzer : Analyzer) (node : ASTNode) :
    Option (Bool × Analyzer × ASTNode) :=
  match fuel with
  | 0 => none
  | fuel + 1 =>
    match analyzeStatementChain fuel analyzer ((node.left).getD ASTNode.null) with
    | none => none
    | some (r1, analyzer, left') =>
      match node.right with
      | some rn =>
        match analyzeCodeBlock fuel analyzer rn with
        | none => none
        | some (r2, analyzer, right') =>
          some (r2 && r1, analyzer,
            (node.withLeft (some left')).withRight (some right'))
      | none => some (r1, analyzer, node.withLeft (some left'))

/-- Definition `analyzeConditionalStatement` from `analyzer.c`: the
condition must analyze to `Bool`; a foldable condition value eliminates
one branch; every analyzed branch is wrapped in
`enterNamespace`/`exitNamespace`. -/
def analyzeConditionalStatement (fuel : Nat) (analyzer : Analyzer) (node : ASTNode) :
    Option (Bool × Analyzer × ASTNode) :=
  match fuel with
  | 0 => none
  | fuel + 1 =>
    let condition := (node.left).getD ASTNode.null
    let conditionalBody := (node.right).getD ASTNode.null
    let e := analyzeExpression analyzer condition
    let result := e.1
    let analyzer := e.2.1
    let condition := e.2.2
    if !result || condition.inferredType ≠ "Bool".toList then
      let analyzer := { analyzer with
        analyzerError := AnalyzerError.ANALYZER_ERROR_INVALID_CONDITION }
      some (false, reportAnalyzerError analyzer node, node.withLeft (some condition))
    else
      let safeEliminateFirstCodeBlock :=
        condition.isFoldable && !condition.nodeValue.booleanValue
      let safeEliminateSecondCodeBlock :=
        condition.isFoldable && condition.nodeValue.booleanValue
      if conditionalBody.nodeType = ASTNodeType.AST_CONDITIONAL_BODY then
        match (if (conditionalBody.left).isSome && !safeEliminateFirstCodeBlock then
                 let analyzer := { analyzer with
                   symbolTable := enterNamespace analyzer.symbolTable }
                 match analyzeCodeBlock fuel analyzer
                   ((conditionalBody.left).getD ASTNode.null) with
                 | none => none
                 | some (rb, analyzer, b1) =>
                   some (rb && result,
                     { analyzer with symbolTable := exitNamespace analyzer.symbolTable },
                     conditionalBody.withLeft (some b1))
               else some (result, analyzer, conditionalBody)) with
        | none => none
        | some (result, analyzer, conditionalBody) =>
          match (if (conditionalBody.right).isSome && !safeEliminateSecondCodeBlock then
                   let analyzer := { analyzer with
                     symbolTable := enterNamespace analyzer.symbolTable }
                   match analyzeCodeBlock fuel analyzer
                     ((conditionalBody.right).getD ASTNode.null) with
                   | none => none
                   | some (rb, analyzer, b2) =>
                     some (rb && result,
                       { analyzer with symbolTable := exitNamespace analyzer.symbolTable },
                       conditionalBody.withRight (some b2))
                 else some (result, analyzer, conditionalBody)) with
          | none => none
          | some (result, analyzer, conditionalBody) =>
            some (result, analyzer,
              (node.withLeft (some condition)).withRight (some conditionalBody))
      else
        some (result, analyzer, node.withLeft (some condition))

/-- Definition `analyzeProgram` from `analyzer.c`: recursively analyze the
program cons-cells, AND-ing the child results. -/
def analyzeProgram (fuel : Nat) (analyzer : Analyzer) (node : ASTNode) :
    Option (Bool × Analyzer × ASTNode) :=
  match fuel with
  | 0 => none
  | fuel + 1 =>
    match node with
    | ASTNode.null => some (true, analyzer, ASTNode.null)
    | _ =>
      if node.nodeType = ASTNodeType.AST_PROGRAM then
        match (match node.left with
               | some l =>
                 match analyzeStatement fuel analyzer l with
                 | none => none
                 | some (r1, analyzer, l') =>
                   some (r1, analyzer, node.withLeft (some l'))
               | none => some (true, analyzer, node)) with
        | none => none
        | some (result, analyzer, node) =>
          match node.right with
          | some r =>
            match analyzeProgram fuel analyzer r with
            | none => none
            | some (r2, analyzer, r') =>
              some (r2 && result, analyzer, node.withRight (some r'))
          | none => some (result, analyzer, node)
      else
        some (true, analyzer, node)

end

/-! Basic facts about the lexer state used by the claim theorems. -/

@[simp]
theorem advanceLexer_closureRound (lexer : Lexer) (c : Char) :
    (advanceLexer lexer c).closureRound = lexer.closureRound := by
  unfold advanceLexer; split <;> rfl

@[simp]
theorem advanceLexer_closureSquare (lexer : Lexer) (c : Char) :
    (advanceLexer lexer c).closureSquare = lexer.closureSquare := by
  unfold advanceLexer; split <;> rfl

@[simp]
theorem advanceLexer_closureCurly (lexer : Lexer) (c : Char) :
    (advanceLexer lexer c).closureCurly = lexer.closureCurly := by
  unfold advanceLexer; split <;> rfl

@[simp]
theorem advanceLexer_previousTokenType (lexer : Lexer) (c : Char) :
    (advanceLexer lexer c).previousTokenType = lexer.previousTokenType := by
  unfold advanceLexer; split <;> rfl

@[simp]
theorem isInClosure_advanceLexer (lexer : Lexer) (c : Char) :
    isInClosure (advanceLexer lexer c) = isInClosure lexer := by
  simp [isInClosure]

/-! Claim C1: context-sensitive lexing of `!`. -/

/-- Claim C1, counterexample: in `x != 1` the `!` is immediately followed
by `=`, yet because the previously emitted token is an Identifier the
lexer emits a factorial token and then a separate assignment token — the
claim's "regardless of the kind of the previously emitted token" is false
on the code. -/
theorem opusC1_counterexample :
    (let r1 := getNextToken initLexer ("x != 1\n".toList)
     let r2 := getNextToken r1.2.1 r1.2.2
     let r3 := getNextToken r2.2.1 r2.2.2
     r1.1.tokenType = TokenType.TOKEN_IDENTIFIER ∧
     r2.1.tokenType = TokenType.TOKEN_ARITHMETIC_FACTORIAL ∧
     r3.1.tokenType = TokenType.TOKEN_ASSIGNMENT_OPERATOR) := by decide

/-- Claim C1, amended: at a `!` immediately followed by `=`, the lexer
emits the single not-equal token only when the previously emitted token is
neither a Numeric nor an Identifier (and no further operator character
follows the `=`); when the previous token is a Numeric or an Identifier it
emits a factorial token instead, leaving the `=` in the stream. -/
theorem opusC1_amended :
    (∀ (lexer : Lexer) (rest : List Char),
      (lexer.previousTokenType = TokenType.TOKEN_NUMERIC ∨
       lexer.previousTokenType = TokenType.TOKEN_IDENTIFIER) →
      getNextTokenAux lexer (some '!') rest =
        (let t := initSafeToken TokenType.TOKEN_ARITHMETIC_FACTORIAL lexer ['!']
         (t.1, t.2, rest))) ∧
    (∀ (lexer : Lexer) (rest : List Char),
      lexer.previousTokenType ≠ TokenType.TOKEN_NUMERIC →
      lexer.previousTokenType ≠ TokenType.TOKEN_IDENTIFIER →
      strchrPeek NATIVE_OPERATORS (peekNextCharacter rest) = false →
      (getNextTokenAux lexer (some '!') ('=' :: rest)).1.tokenType =
        TokenType.TOKEN_NOT_EQUAL_TO_OPERATOR) ∧
    (∀ (lexer : Lexer) (rest : List Char),
      lexer.previousTokenType ≠ TokenType.TOKEN_NUMERIC →
      lexer.previousTokenType ≠ TokenType.TOKEN_IDENTIFIER →
      strchrPeek NATIVE_OPERATORS (peekNextCharacter rest) = true →
      (getNextTokenAux lexer (some '!') ('=' :: rest)).1.tokenError =
        TokenError.ERROR_UNDEFINED_OPERATOR) := by
  refine ⟨?_, ?_, ?_⟩
  · intro lexer rest h
    rcases h with h | h <;>
    simp [getNextTokenAux, h, isdigitC, initialLexeme]
  · intro lexer rest h1 h2 h3
    simp only [peekNextCharacter] at h3
    simp [getNextTokenAux, h1, h2, h3, isdigitC, initSafeToken, initialLexeme,
      peekNextCharacter, consumeNextCharacter]
  · intro lexer rest h1 h2 h3
    simp only [peekNextCharacter] at h3
    simp [getNextTokenAux, h1, h2, h3, isdigitC, initUnsafeToken, initialLexeme,
      peekNextCharacter, consumeNextCharacter]

/-- Claim C1, witness: the amended theorem applied at concrete inputs
(`1!` after a numeric, `!=` after `(`, `!==` after `(`). -/
theorem opusC1_witness :
    (getNextTokenAux { initLexer with previousTokenType := TokenType.TOKEN_NUMERIC }
      (some '!') ('=' :: ['1']) =
      (let t := initSafeToken TokenType.TOKEN_ARITHMETIC_FACTORIAL
        { initLexer with previousTokenType := TokenType.TOKEN_NUMERIC } ['!']
       (t.1, t.2, '=' :: ['1']))) ∧
    ((getNextTokenAux { initLexer with previousTokenType := TokenType.TOKEN_OPENING_BRACKET }
      (some '!') ('=' :: [' '])).1.tokenType = TokenType.TOKEN_NOT_EQUAL_TO_OPERATOR) ∧
    ((getNextTokenAux { initLexer with previousTokenType := TokenType.TOKEN_OPENING_BRACKET }
      (some '!') ('=' :: ['='])).1.tokenError = TokenError.ERROR_UNDEFINED_OPERATOR) :=
  ⟨opusC1_amended.1 _ _ (Or.inl rfl),
   opusC1_amended.2.1 _ _ (by decide) (by decide) (by decide),
   opusC1_amended.2.2 _ _ (by decide) (by decide) (by decide)⟩

/-! Claim C2: a newline is a Delimiter exactly when the round and square
bracket counters are zero; the curly counter has no influence. -/

/-- Claim C2: when the next unconsumed byte is a newline, the lexer emits
a Delimiter token if both the round and the square counter are zero
(whatever the curly counter holds); otherwise it consumes the newline as
whitespace and continues lexing from the rest of the stream; and the
token-building step (`getNextTokenAux`) classifies a newline as a
Delimiter exactly when both counters are zero. -/
theorem opusC2_newline_delimiter :
    (∀ (lexer : Lexer) (rest : List Char),
      lexer.closureRound = 0 → lexer.closureSquare = 0 →
      (getNextToken lexer ('\n' :: rest)).1.tokenType = TokenType.TOKEN_DELIMITER) ∧
    (∀ (lexer : Lexer) (rest : List Char),
      ¬(lexer.closureRound = 0 ∧ lexer.closureSquare = 0) →
      getNextToken lexer ('\n' :: rest) = getNextToken (advanceLexer lexer '\n') rest) ∧
    (∀ (lexer : Lexer) (rest : List Char),
      (getNextTokenAux lexer (some '\n') rest).1.tokenType = TokenType.TOKEN_DELIMITER ↔
      (lexer.closureRound = 0 ∧ lexer.closureSquare = 0)) := by
  refine ⟨?_, ?_, ?_⟩
  · intro lexer rest h1 h2
    simp [getNextToken, locateStartOfNextToken, locateStartOfNextTokenMode,
      isWhitespace, isInClosure, h1, h2, getNextTokenAux, initSafeToken, initialLexeme]
  · intro lexer rest h
    have hc : isInClosure lexer = true := by
      simp only [isInClosure]
      by_cases hr : lexer.closureRound = 0
      · by_cases hs : lexer.closureSquare = 0
        · exact absurd ⟨hr, hs⟩ h
        · simp [hs]
      · simp [hr]
    simp [getNextToken, locateStartOfNextToken, locateStartOfNextTokenMode,
      isWhitespace, hc]
  · intro lexer rest
    by_cases hr : lexer.closureRound = 0
    · by_cases hs : lexer.closureSquare = 0
      · have hc : isInClosure lexer = false := by simp [isInClosure, hr, hs]
        simp [getNextTokenAux, hc, initSafeToken, initialLexeme, hr, hs]
      · have hc : isInClosure lexer = true := by simp [isInClosure, hs]
        simp [getNextTokenAux, hc, initSafeToken, initUnsafeToken, initialLexeme,
          isdigitC, isalphaC, isalnumC, hs]
    · have hc : isInClosure lexer = true := by simp [isInClosure, hr]
      simp [getNextTokenAux, hc, initSafeToken, initUnsafeToken, initialLexeme,
        isdigitC, isalphaC, isalnumC, hr]

/-- Claim C2, witness: the theorem applied with counters (0,5,0) — a
newline inside `{...}` is still a Delimiter — and with a non-zero round
counter, where the same newline is consumed as whitespace. -/
theorem opusC2_witness :
    ((getNextToken { initLexer with closureCurly := 5 } ('\n' :: ['x'])).1.tokenType =
      TokenType.TOKEN_DELIMITER) ∧
    (getNextToken { initLexer with closureRound := 1 } ('\n' :: ['x']) =
      getNextToken (advanceLexer { initLexer with closureRound := 1 } '\n') ['x']) ∧
    ((getNextTokenAux { initLexer with closureSquare := 2 } (some '\n') []).1.tokenType =
        TokenType.TOKEN_DELIMITER ↔
      ({ initLexer with closureSquare := 2 } : Lexer).closureRound = 0 ∧
      ({ initLexer with closureSquare := 2 } : Lexer).closureSquare = 0) :=
  ⟨opusC2_newline_delimiter.1 _ _ rfl rfl,
   opusC2_newline_delimiter.2.1 _ _ (by decide),
   opusC2_newline_delimiter.2.2 _ _⟩

/-! Claim C3: bracket counters and the end-of-input unclosed-bracket
report. -/

/-- Claim C3, counterexample: after lexing the single token `)` from the
initial state the round counter is `-1` — the counters are not
non-negative after every emitted token, because a closing bracket
decrements without any lower bound. -/
theorem opusC3_counterexample :
    (getNextToken initLexer [')']).1.tokenType = TokenType.TOKEN_CLOSING_BRACKET ∧
    (getNextToken initLexer [')']).2.1.closureRound = -1 ∧
    ¬(0 ≤ (getNextToken initLexer [')']).2.1.closureRound) := by decide

/-- Claim C3, amended: the counters follow the bracket tokens without a
lower bound (they go negative on an unmatched closing bracket, as the
counterexample shows); at end of input the lexer reports an
unclosed-bracket error of the corresponding class whenever some counter
is non-zero — when several are non-zero a single error field survives, in
the overwrite order round, then curly, then square. -/
theorem opusC3_amended :
    (∀ lexer : Lexer, (reportLexerError lexer).lexerError =
      (if lexer.closureSquare ≠ 0 then LexerError.ERROR_UNCLOSED_SQUARE_BRACKET
       else if lexer.closureCurly ≠ 0 then LexerError.ERROR_UNCLOSED_CURLY_BRACKET
       else if lexer.closureRound ≠ 0 then LexerError.ERROR_UNCLOSED_BRACKET
       else lexer.lexerError)) ∧
    (∀ (lexer : Lexer) (sourceCode : List Char),
      (getNextTokenAux lexer none sourceCode).1.tokenType = TokenType.TOKEN_EOF ∧
      (getNextTokenAux lexer none sourceCode).2.1.lexerError =
        (reportLexerError lexer).lexerError) := by
  constructor
  · intro lexer
    simp only [reportLexerError]
    by_cases hr : lexer.closureRound = 0 <;>
    by_cases hc : lexer.closureCurly = 0 <;>
    by_cases hs : lexer.closureSquare = 0 <;>
    simp [hr, hc, hs]
  · intro lexer sourceCode
    constructor
    · simp [getNextTokenAux, initSafeToken, initialLexeme]
    · simp [getNextTokenAux, initSafeToken, initialLexeme, reportLexerError]

/-- Claim C3, witness: the amended theorem applied at a state with an
unmatched round and an unmatched square bracket (the square class wins),
checked against a direct evaluation. -/
theorem opusC3_witness :
    (reportLexerError
      { initLexer with closureRound := -1, closureSquare := 2 }).lexerError =
        LexerError.ERROR_UNCLOSED_SQUARE_BRACKET ∧
    (getNextTokenAux { initLexer with closureRound := 3 } none []).2.1.lexerError =
        LexerError.ERROR_UNCLOSED_BRACKET := by
  constructor
  · rw [(opusC3_amended.1 { initLexer with closureRound := -1, closureSquare := 2 })]
    decide
  · rw [(opusC3_amended.2 { initLexer with closureRound := 3 } []).2]
    decide

/-! Claim C9: string literals and the escape of the following byte. -/

/-- Claim C9, behaviour of the code at the failing input `"a\"b"`: the
backslash byte is stored literally, but the loop does not protect the byte
after it, so the quote that follows the backslash terminates the literal:
the first token is a string literal with lexeme `a\` (not `a\"b`), and
lexing then continues with the identifier `b` and an unterminated final
quote. The outer quotes are indeed never stored, and a string reaching end
of input without a closing quote is an unterminated-string error, as the
last conjunct checks on the input `"ab`. -/
theorem opusC9_escape_bug :
    (let r1 := getNextToken initLexer ("\"a\\\"b\"".toList)
     let r2 := getNextToken r1.2.1 r1.2.2
     r1.1.tokenType = TokenType.TOKEN_STRING_LITERAL ∧
     r1.1.lexeme = ['a', '\\'] ∧
     r2.1.tokenType = TokenType.TOKEN_IDENTIFIER ∧
     r2.1.lexeme = ['b']) ∧
    ((getNextToken initLexer ("\"ab".toList)).1.tokenError =
      TokenError.ERROR_UNTERMINATED_STRING) := by decide

/-! Claim C4: re-declaration detection in `analyzeDeclarationStatement`. -/

/-- Claim C4, counterexample: with `x : Int` declared at namespace 0 and
the current namespace raised to 1, a fresh declaration of `x` (whose
identifier exists only at the strictly lower level 0) is rejected as a
re-declared variable, because `lookupSymbolFromCurrentNamespace` compares
with `<=` rather than `==` — the claim's "declaration succeeds" branch is
false on the code. -/
theorem opusC4_counterexample :
    (let table := enterNamespace (addSymbol initSymbolTable "x".toList "Int".toList ⟨1, 5⟩)
     let node := (initASTNode ASTNodeType.AST_VARIABLE_DECLARATION
        (some ⟨TokenType.TOKEN_KEYWORD_VAR, TokenError.ERROR_TOKEN_NONE, ⟨2, 1⟩,
          "var".toList⟩)).withLeft
        (some (initASTNode ASTNodeType.AST_IDENTIFIER
          (some ⟨TokenType.TOKEN_IDENTIFIER, TokenError.ERROR_TOKEN_NONE, ⟨2, 5⟩,
            "x".toList⟩))) |>.withRight
        (some (initASTNode ASTNodeType.AST_TYPE_ANNOT
          (some ⟨TokenType.TOKEN_IDENTIFIER, TokenError.ERROR_TOKEN_NONE, ⟨2, 8⟩,
            "Int".toList⟩)))
     let r := analyzeDeclarationStatement (initAnalyzer table) node
     table.currentNamespace = 1 ∧
     (∀ s ∈ table.symbols, s.namespaceLevel = 0) ∧
     r.1 = false ∧
     r.2.analyzerError = AnalyzerError.ANALYZER_ERROR_REDECLARED_VARIABLE) := by decide

/-- Claim C4, amended: the analyzer rejects a declaration with a
re-declared-variable error if and only if a symbol with the same
identifier exists at *any* namespace level less than or equal to the
current one (i.e. any reachable symbol, so shadowing an enclosing scope
is also rejected); otherwise it inserts a new symbol with the declared
type and the mutability implied by `var` vs `let`. -/
theorem opusC4_amended (analyzer : Analyzer) (node : ASTNode) :
    (let identifier := ((node.left).getD ASTNode.null).tokLexeme
     let r := analyzeDeclarationStatement analyzer node
     ((lookupSymbolFromCurrentNamespace analyzer.symbolTable identifier).isSome →
        r.1 = false ∧
        r.2.analyzerError = AnalyzerError.ANALYZER_ERROR_REDECLARED_VARIABLE ∧
        r.2.reports = analyzer.reports ++ [AnalyzerError.ANALYZER_ERROR_REDECLARED_VARIABLE] ∧
        r.2.symbolTable = analyzer.symbolTable) ∧
     ((lookupSymbolFromCurrentNamespace analyzer.symbolTable identifier).isNone →
        r.1 = true ∧ r.2.analyzerError = analyzer.analyzerError ∧
        r.2.reports = analyzer.reports ∧
        r.2.symbolTable.currentNamespace = analyzer.symbolTable.currentNamespace ∧
        r.2.symbolTable.symbols =
          { identifier := identifier
            type := ((node.right).getD ASTNode.null).tokLexeme
            namespaceLevel := analyzer.symbolTable.currentNamespace
            hasInitialized := false
            isMutable := decide (node.nodeType = ASTNodeType.AST_VARIABLE_DECLARATION)
            declarationLocation := (node.token.map Token.location).getD ⟨0, 0⟩
            symbolValue := uninitNodeValue } :: analyzer.symbolTable.symbols)) := by
  constructor
  · intro h
    simp [analyzeDeclarationStatement, h, reportAnalyzerError]
  · intro h
    simp only [Option.isNone_iff_eq_none] at h
    have h' : (lookupSymbolFromCurrentNamespace analyzer.symbolTable
        ((node.left).getD ASTNode.null).tokLexeme).isSome = false := by simp [h]
    by_cases hk : node.nodeType = ASTNodeType.AST_VARIABLE_DECLARATION <;>
    simp [analyzeDeclarationStatement, h', addSymbol, hk]

/-- Claim C4, witness: the amended theorem applied to the counterexample
state (rejection branch) and to a `let` declaration over the empty table
(success branch, immutable symbol inserted). -/
theorem opusC4_witness :
    (let table := enterNamespace (addSymbol initSymbolTable "x".toList "Int".toList ⟨1, 5⟩)
     let node := (initASTNode ASTNodeType.AST_VARIABLE_DECLARATION
        (some ⟨TokenType.TOKEN_KEYWORD_VAR, TokenError.ERROR_TOKEN_NONE, ⟨2, 1⟩,
          "var".toList⟩)).withLeft
        (some (initASTNode ASTNodeType.AST_IDENTIFIER
          (some ⟨TokenType.TOKEN_IDENTIFIER, TokenError.ERROR_TOKEN_NONE, ⟨2, 5⟩,
            "x".toList⟩))) |>.withRight
        (some (initASTNode ASTNodeType.AST_TYPE_ANNOT
          (some ⟨TokenType.TOKEN_IDENTIFIER, TokenError.ERROR_TOKEN_NONE, ⟨2, 8⟩,
            "Int".toList⟩)))
     (analyzeDeclarationStatement (initAnalyzer table) node).1 = false) ∧
    (let node := (initASTNode ASTNodeType.AST_CONSTANT_DECLARATION
        (some ⟨TokenType.TOKEN_KEYWORD_LET, TokenError.ERROR_TOKEN_NONE, ⟨1, 1⟩,
          "let".toList⟩)).withLeft
        (some (initASTNode ASTNodeType.AST_IDENTIFIER
          (some ⟨TokenType.TOKEN_IDENTIFIER, TokenError.ERROR_TOKEN_NONE, ⟨1, 5⟩,
            "y".toList⟩))) |>.withRight
        (some (initASTNode ASTNodeType.AST_TYPE_ANNOT
          (some ⟨TokenType.TOKEN_IDENTIFIER, TokenError.ERROR_TOKEN_NONE, ⟨1, 8⟩,
            "Int".toList⟩)))
     let r := analyzeDeclarationStatement (initAnalyzer initSymbolTable) node
     r.1 = true ∧ r.2.symbolTable.symbols.length = 1) := by
  constructor
  · exact (opusC4_amended _ _).1 (by decide) |>.1
  · refine ⟨((opusC4_amended _ _).2 (by decide)).1, ?_⟩
    rw [((opusC4_amended (initAnalyzer initSymbolTable) _).2 (by decide)).2.2.2.2]
    decide

/-! Claim C5: the immutable-modification rule of assignment analysis.
Supporting lemmas: a failed expression analysis always leaves an
undeclared-variable or type-mismatch error (never immutable-modification),
expression analysis never modifies the symbol table, and looking up an
identifier after the in-place symbol update of `analyzer.c` yields the
updated symbol. -/


theorem analyzeExpression_false_error (analyzer : Analyzer) (node : ASTNode) :
    (analyzeExpression analyzer node).1 = false →
    (analyzeExpression analyzer node).2.1.analyzerError =
        AnalyzerError.ANALYZER_ERROR_UNDECLARED_VARIABLE ∨
    (analyzeExpression analyzer node).2.1.analyzerError =
        AnalyzerError.ANALYZER_ERROR_OPERATION_TYPE_MISSMATCH := by
  induction node generalizing analyzer with
  | null => simp [analyzeExpression]
  | mk t tk l r ty f v ihl ihr =>
    cases t
    case AST_IDENTIFIER =>
      simp only [analyzeExpression]
      split
      · simp [reportAnalyzerError]
      · split
        · split <;> simp
        · simp
    case AST_BINARY_EXPRESSION =>
      simp only [analyzeExpression]
      rcases hl : analyzeExpression analyzer l with ⟨rb, a1, l'⟩
      cases rb
      · have h := ihl analyzer
        rw [hl] at h
        simp at h
        simp [h]
      · rcases hr : analyzeExpression a1 r with ⟨rb2, a2, r'⟩
        cases rb2
        · have h := ihr a1
          rw [hr] at h
          simp at h
          simp [hr, h]
        · simp only [hr]
          repeat' split
          all_goals simp [reportAnalyzerError]
    case AST_UNARY_EXPRESSION =>
      simp only [analyzeExpression]
      rcases hl : analyzeExpression analyzer l with ⟨rb, a1, l'⟩
      cases rb
      · have h := ihl analyzer
        rw [hl] at h
        simp at h
        simp [h]
      · simp only [hl]
        repeat' split
        all_goals simp [reportAnalyzerError]
    all_goals simp [analyzeExpression]
    case AST_LITERAL =>
      repeat' split
      all_goals simp

theorem find_update_go (symbolTable : SymbolTable) (identifier : List Char)
    (f : OpusSymbol → OpusSymbol)
    (hfid : ∀ s, (f s).identifier = s.identifier)
    (hfns : ∀ s, (f s).namespaceLevel = s.namespaceLevel)
    (l : List OpusSymbol) :
    (updateSymbolFromCurrentNamespace.go symbolTable identifier f l).find? (fun s =>
        s.identifier = identifier && s.namespaceLevel ≤ symbolTable.currentNamespace) =
      (l.find? (fun s =>
        s.identifier = identifier && s.namespaceLevel ≤ symbolTable.currentNamespace)).map f := by
  induction l with
  | nil => simp [updateSymbolFromCurrentNamespace.go]
  | cons s rest ih =>
    simp only [updateSymbolFromCurrentNamespace.go]
    by_cases hp : (s.identifier = identifier ∧ s.namespaceLevel ≤ symbolTable.currentNamespace)
    · rw [if_pos (by simp [hp.1, hp.2])]
      rw [List.find?_cons_of_pos _ (by simp [hfid, hfns, hp.1, hp.2])]
      rw [List.find?_cons_of_pos _ (by simp [hp.1, hp.2])]
      simp
    · have hp' : (s.identifier = identifier && s.namespaceLevel ≤ symbolTable.currentNamespace) = false := by
        by_cases h1 : s.identifier = identifier
        · by_cases h2 : s.namespaceLevel ≤ symbolTable.currentNamespace
          · exact absurd ⟨h1, h2⟩ hp
          · simp [h2]
        · simp [h1]
      rw [if_neg (by simp [hp'])]
      rw [List.find?_cons_of_neg _ (by simp [hp'])]
      rw [List.find?_cons_of_neg _ (by simp [hp'])]
      exact ih

theorem lookup_update (table : SymbolTable) (identifier : List Char)
    (f : OpusSymbol → OpusSymbol)
    (hfid : ∀ s, (f s).identifier = s.identifier)
    (hfns : ∀ s, (f s).namespaceLevel = s.namespaceLevel) :
    lookupSymbolFromCurrentNamespace (updateSymbolFromCurrentNamespace table identifier f)
        identifier =
      (lookupSymbolFromCurrentNamespace table identifier).map f := by
  simp only [lookupSymbolFromCurrentNamespace, updateSymbolFromCurrentNamespace]
  exact find_update_go table identifier f hfid hfns table.symbols

theorem analyzeExpression_symbolTable (analyzer : Analyzer) (node : ASTNode) :
    (analyzeExpression analyzer node).2.1.symbolTable = analyzer.symbolTable := by
  induction node generalizing analyzer with
  | null => simp [analyzeExpression]
  | mk t tk l r ty f v ihl ihr =>
    cases t
    case AST_IDENTIFIER =>
      simp only [analyzeExpression]
      split
      · simp [reportAnalyzerError]
      · split
        · split <;> simp
        · simp
    case AST_BINARY_EXPRESSION =>
      simp only [analyzeExpression]
      rcases hl : analyzeExpression analyzer l with ⟨rb, a1, l'⟩
      have h1 := ihl analyzer
      rw [hl] at h1
      simp only at h1
      cases rb
      · simp [h1]
      · rcases hr : analyzeExpression a1 r with ⟨rb2, a2, r'⟩
        have h2 := ihr a1
        rw [hr] at h2
        simp only at h2
        cases rb2
        · simp [hr, h1, h2]
        · simp only [hr]
          repeat' split
          all_goals simp [reportAnalyzerError, h1, h2]
    case AST_UNARY_EXPRESSION =>
      simp only [analyzeExpression]
      rcases hl : analyzeExpression analyzer l with ⟨rb, a1, l'⟩
      have h1 := ihl analyzer
      rw [hl] at h1
      simp only at h1
      cases rb
      · simp [h1]
      · simp only [hl]
        repeat' split
        all_goals simp [reportAnalyzerError, h1]
    all_goals simp [analyzeExpression]
    case AST_LITERAL =>
      repeat' split
      all_goals simp

theorem opusC5_immutable (analyzer : Analyzer) (node leftNode : ASTNode)
    (symbol : OpusSymbol)
    (hleft : node.left = some leftNode)
    (hkind : leftNode.nodeType = ASTNodeType.AST_IDENTIFIER)
    (hsym : lookupSymbolFromCurrentNamespace analyzer.symbolTable leftNode.tokLexeme =
      some symbol) :
    (let r := analyzeAssignmentStatement analyzer node
     ((r.1 = false ∧
       r.2.1.analyzerError = AnalyzerError.ANALYZER_ERROR_IMMUTABLE_MODIFICATION) ↔
        (symbol.isMutable = false ∧ symbol.hasInitialized = true)) ∧
     (symbol.isMutable = false → symbol.hasInitialized = true →
        r.2.1.symbolTable = analyzer.symbolTable) ∧
     (symbol.hasInitialized = false →
        ∀ a2 rhs',
          analyzeExpression analyzer ((node.right).getD ASTNode.null) = (true, a2, rhs') →
          symbol.type = rhs'.inferredType →
          r.1 = true ∧
          (lookupSymbolFromCurrentNamespace r.2.1.symbolTable
              leftNode.tokLexeme).map OpusSymbol.hasInitialized = some true)) := by
  have hnotdecl1 : leftNode.nodeType ≠ ASTNodeType.AST_VARIABLE_DECLARATION := by
    rw [hkind]; decide
  have hnotdecl2 : leftNode.nodeType ≠ ASTNodeType.AST_CONSTANT_DECLARATION := by
    rw [hkind]; decide
  have hstep : analyzeAssignmentStatement analyzer node =
      analyzeAssignmentTarget analyzer node leftNode.tokLexeme true := by
    simp [analyzeAssignmentStatement, hleft, hnotdecl1, hnotdecl2]
  refine ⟨?_, ?_, ?_⟩
  · rw [hstep]
    constructor
    · intro hfe
      by_cases hgood : symbol.isMutable = false ∧ symbol.hasInitialized = true
      · exact hgood
      · exfalso
        have hgate : (!symbol.isMutable && symbol.hasInitialized) = false := by
          by_cases hm : symbol.isMutable
          · simp [hm]
          · by_cases hi : symbol.hasInitialized
            · exact absurd ⟨by simp [hm], hi⟩ hgood
            · simp [hi]
        rcases he : analyzeExpression analyzer ((node.right).getD ASTNode.null)
          with ⟨re, a2, rhs'⟩
        have hlem := analyzeExpression_false_error analyzer ((node.right).getD ASTNode.null)
        rw [he] at hlem
        simp only at hlem
        rw [analyzeAssignmentTarget] at hfe
        rw [hsym] at hfe
        simp only [hgate, Bool.false_eq_true, if_false, he] at hfe
        rcases hfe with ⟨hf, herr⟩
        revert hf herr
        cases re
        · split
          · simp [reportAnalyzerError]
          · intro hf herr
            rcases hlem rfl with h | h <;> simp_all
        · split
          · simp [reportAnalyzerError]
          · intro hf
            simp at hf
    · intro ⟨hmut, hinit⟩
      simp [analyzeAssignmentTarget, hsym, hmut, hinit, reportAnalyzerError]
  · intro hmut hinit
    rw [hstep]
    simp [analyzeAssignmentTarget, hsym, hmut, hinit, reportAnalyzerError]
  · intro hinit a2 rhs' he hty
    rw [hstep]
    have hgate : (!symbol.isMutable && symbol.hasInitialized) = false := by simp [hinit]
    have htab : a2.symbolTable = analyzer.symbolTable := by
      have h := analyzeExpression_symbolTable analyzer ((node.right).getD ASTNode.null)
      rw [he] at h
      exact h
    rw [analyzeAssignmentTarget]
    rw [hsym]
    simp only [hgate, Bool.false_eq_true, if_false, he]
    rw [if_neg (by simp [hty])]
    refine ⟨by simp, ?_⟩
    simp only [htab]
    repeat' split
    all_goals simp [lookup_update, hsym]

/-- Claim C5, witness: the theorem applied to a table holding the
initialized constant `x : Int` and the assignment `x = 2`: the analyzer
rejects with an immutable-modification error and leaves the table (hence
the constant's value payload) untouched. -/
theorem opusC5_witness :
    (let xsym : OpusSymbol :=
      { identifier := "x".toList, type := "Int".toList, namespaceLevel := 0
        hasInitialized := true, isMutable := false
        declarationLocation := ⟨1, 5⟩, symbolValue := uninitNodeValue }
     let analyzer := initAnalyzer { currentNamespace := 0, symbols := [xsym] }
     let leftNode := initASTNode ASTNodeType.AST_IDENTIFIER
       (some ⟨TokenType.TOKEN_IDENTIFIER, TokenError.ERROR_TOKEN_NONE, ⟨2, 1⟩, "x".toList⟩)
     let node := ((initASTNode ASTNodeType.AST_ASSIGNMENT_STATEMENT
       (some ⟨TokenType.TOKEN_ASSIGNMENT_OPERATOR, TokenError.ERROR_TOKEN_NONE, ⟨2, 3⟩,
         "=".toList⟩)).withLeft (some leftNode)).withRight
       (some (initASTNode ASTNodeType.AST_LITERAL
         (some ⟨TokenType.TOKEN_NUMERIC, TokenError.ERROR_TOKEN_NONE, ⟨2, 5⟩, "2".toList⟩)))
     (analyzeAssignmentStatement analyzer node).1 = false ∧
     (analyzeAssignmentStatement analyzer node).2.1.analyzerError =
       AnalyzerError.ANALYZER_ERROR_IMMUTABLE_MODIFICATION ∧
     (analyzeAssignmentStatement analyzer node).2.1.symbolTable =
       analyzer.symbolTable) := by
  have h := opusC5_immutable
    (initAnalyzer { currentNamespace := 0, symbols := [
      { identifier := "x".toList, type := "Int".toList, namespaceLevel := 0
        hasInitialized := true, isMutable := false
        declarationLocation := ⟨1, 5⟩, symbolValue := uninitNodeValue }] })
    (((initASTNode ASTNodeType.AST_ASSIGNMENT_STATEMENT
       (some ⟨TokenType.TOKEN_ASSIGNMENT_OPERATOR, TokenError.ERROR_TOKEN_NONE, ⟨2, 3⟩,
         "=".toList⟩)).withLeft (some (initASTNode ASTNodeType.AST_IDENTIFIER
       (some ⟨TokenType.TOKEN_IDENTIFIER, TokenError.ERROR_TOKEN_NONE, ⟨2, 1⟩,
         "x".toList⟩)))).withRight
       (some (initASTNode ASTNodeType.AST_LITERAL
         (some ⟨TokenType.TOKEN_NUMERIC, TokenError.ERROR_TOKEN_NONE, ⟨2, 5⟩, "2".toList⟩))))
    (initASTNode ASTNodeType.AST_IDENTIFIER
       (some ⟨TokenType.TOKEN_IDENTIFIER, TokenError.ERROR_TOKEN_NONE, ⟨2, 1⟩, "x".toList⟩))
    { identifier := "x".toList, type := "Int".toList, namespaceLevel := 0
      hasInitialized := true, isMutable := false
      declarationLocation := ⟨1, 5⟩, symbolValue := uninitNodeValue }
    (by decide) (by decide) (by decide)
  refine ⟨(h.1.mpr ⟨rfl, rfl⟩).1, (h.1.mpr ⟨rfl, rfl⟩).2, h.2.1 rfl rfl⟩

/-! Claim C7: precedence, left-associativity, and integer constant
folding. Helper lemmas: field accessor facts for AST nodes, the class of
integer-arithmetic constant expressions with its reference ("host")
evaluation, and the correctness of `analyzeExpression` folding on that
class. -/


@[simp]
theorem ASTNode.withLeft_mk (t : ASTNodeType) (tk : Option Token) (a b : ASTNode)
    (ty : List Char) (f : Bool) (v : NodeValue) (x : Option ASTNode) :
    (ASTNode.mk t tk a b ty f v).withLeft x = ASTNode.mk t tk (x.getD ASTNode.null) b ty f v := rfl

@[simp]
theorem ASTNode.withRight_mk (t : ASTNodeType) (tk : Option Token) (a b : ASTNode)
    (ty : List Char) (f : Bool) (v : NodeValue) (x : Option ASTNode) :
    (ASTNode.mk t tk a b ty f v).withRight x = ASTNode.mk t tk a (x.getD ASTNode.null) ty f v := rfl

@[simp]
theorem ASTNode.leftD_mk (t : ASTNodeType) (tk : Option Token) (a b : ASTNode)
    (ty : List Char) (f : Bool) (v : NodeValue) :
    ((ASTNode.mk t tk a b ty f v).left).getD ASTNode.null = a := by
  cases a <;> simp [ASTNode.left]

@[simp]
theorem ASTNode.rightD_mk (t : ASTNodeType) (tk : Option Token) (a b : ASTNode)
    (ty : List Char) (f : Bool) (v : NodeValue) :
    ((ASTNode.mk t tk a b ty f v).right).getD ASTNode.null = b := by
  cases b <;> simp [ASTNode.right]

/-- Integer-arithmetic constant expressions: integer numeric literals
combined by the five arithmetic binary operators. -/
def isIntArithExpr : ASTNode → Bool
  | .mk ASTNodeType.AST_LITERAL (some tok) .null .null _ _ _ =>
      tok.tokenType = TokenType.TOKEN_NUMERIC && !(tok.lexeme.contains '.')
  | .mk ASTNodeType.AST_BINARY_EXPRESSION (some tok) l r _ _ _ =>
      isArithmeticOperatorToken tok.tokenType && isIntArithExpr l && isIntArithExpr r
  | _ => false

/-- Reference ("host") evaluation of an integer-arithmetic constant
expression: textbook evaluation of the tree, using the C `int` truncated
division and modulo. -/
def evalIntArith : ASTNode → Int
  | .mk ASTNodeType.AST_LITERAL (some tok) _ _ _ _ _ => atoiC tok.lexeme
  | .mk ASTNodeType.AST_BINARY_EXPRESSION (some tok) l r _ _ _ =>
      let a := evalIntArith l
      let b := evalIntArith r
      if tok.tokenType = TokenType.TOKEN_ARITHMETIC_ADDITION then a + b
      else if tok.tokenType = TokenType.TOKEN_ARITHMETIC_SUBTRACTION then a - b
      else if tok.tokenType = TokenType.TOKEN_ARITHMETIC_MULTIPLICATION then a * b
      else if tok.tokenType = TokenType.TOKEN_ARITHMETIC_DIVISION then Int.tdiv a b
      else Int.tmod a b
  | _ => 0

/-- 32-bit representable range of the C `int`. -/
def inIntRange (n : Int) : Bool := -(2 ^ 31) ≤ n && n < 2 ^ 31

/-- Defined-behaviour condition for folding an integer-arithmetic
expression in C: every subexpression value representable, no division or
modulo by zero. -/
def intArithDefined : ASTNode → Bool
  | n@(.mk ASTNodeType.AST_LITERAL _ _ _ _ _ _) => inIntRange (evalIntArith n)
  | n@(.mk ASTNodeType.AST_BINARY_EXPRESSION (some tok) l r _ _ _) =>
      intArithDefined l && intArithDefined r && inIntRange (evalIntArith n) &&
      (!(tok.tokenType = TokenType.TOKEN_ARITHMETIC_DIVISION ||
         tok.tokenType = TokenType.TOKEN_ARITHMETIC_MODULO) || !(evalIntArith r = 0))
  | _ => false

theorem analyzeExpression_intArith (analyzer : Analyzer) (node : ASTNode)
    (h : isIntArithExpr node = true) :
    (analyzeExpression analyzer node).1 = true ∧
    (analyzeExpression analyzer node).2.1 = analyzer ∧
    (analyzeExpression analyzer node).2.2.inferredType = "Int".toList ∧
    (analyzeExpression analyzer node).2.2.isFoldable = true ∧
    (analyzeExpression analyzer node).2.2.nodeValue.integerValue = evalIntArith node := by
  induction node generalizing analyzer with
  | null => simp [isIntArithExpr] at h
  | mk t tk l r ty f v ihl ihr =>
    cases t <;> try simp [isIntArithExpr] at h
    case AST_LITERAL =>
      rcases tk with _ | tok
      · simp [isIntArithExpr] at h
      · cases l <;> cases r <;> try simp [isIntArithExpr] at h
        rcases h with ⟨h1, h2⟩
        simp [analyzeExpression, ASTNode.tokType, ASTNode.token, ASTNode.tokLexeme, h1, h2,
          evalIntArith, ASTNode.withInferredType, ASTNode.withFoldable, ASTNode.withValue,
          ASTNode.inferredType, ASTNode.isFoldable, ASTNode.nodeValue]
    case AST_BINARY_EXPRESSION =>
      rcases tk with _ | tok
      · simp [isIntArithExpr] at h
      · simp only [isIntArithExpr, Bool.and_eq_true] at h
        rcases h with ⟨⟨hop, hl⟩, hr⟩
        rcases hel : analyzeExpression analyzer l with ⟨rl, al, l'⟩
        have IHl := ihl analyzer hl
        rw [hel] at IHl
        simp only at IHl
        rcases IHl with ⟨hrl, hal, hlt, hlf, hlv⟩
        rcases her : analyzeExpression al r with ⟨rr, ar, r'⟩
        have IHr := ihr al hr
        rw [her] at IHr
        simp only at IHr
        rcases IHr with ⟨hrr, har, hrt, hrf, hrv⟩
        subst hrl
        subst hrr
        subst hal
        subst har
        cases l' with
        | null => simp [ASTNode.inferredType] at hlt
        | mk lt2 ltk2 ll2 lr2 lty2 lf2 lv2 =>
          simp only [ASTNode.inferredType] at hlt
          simp only [ASTNode.isFoldable] at hlf
          simp only [ASTNode.nodeValue] at hlv
          subst hlt
          subst hlf
          cases r' with
          | null => simp [ASTNode.inferredType] at hrt
          | mk rt2 rtk2 rl2 rr2 rty2 rf2 rv2 =>
            simp only [ASTNode.inferredType] at hrt
            simp only [ASTNode.isFoldable] at hrf
            simp only [ASTNode.nodeValue] at hrv
            subst hrt
            subst hrf
            simp [analyzeExpression, hel, her, ASTNode.tokType, ASTNode.token,
              ASTNode.inferredType, isNumeric, hop, foldBinaryExpression,
              ASTNode.withInferredType, ASTNode.withFoldable, ASTNode.withValue,
              ASTNode.isFoldable, ASTNode.nodeValue, evalIntArith, hlv, hrv]

theorem opusC7_precedence_fold :
    (let r := parseOpus 50 ("1 + 2 * 3\n".toList)
     let ast := (r.getD (ASTNode.null, initParserState [])).1
     let p := (r.getD (ASTNode.null, initParserState [])).2
     let e := (ast.left).getD ASTNode.null
     let lhs := (e.left).getD ASTNode.null
     let mul := (e.right).getD ASTNode.null
     r.isSome = true ∧ p.errors = [] ∧
     e.nodeType = ASTNodeType.AST_BINARY_EXPRESSION ∧ e.tokLexeme = "+".toList ∧
     lhs.nodeType = ASTNodeType.AST_LITERAL ∧ lhs.tokLexeme = "1".toList ∧
     mul.nodeType = ASTNodeType.AST_BINARY_EXPRESSION ∧ mul.tokLexeme = "*".toList ∧
     ((mul.left).getD ASTNode.null).nodeType = ASTNodeType.AST_LITERAL ∧
     ((mul.left).getD ASTNode.null).tokLexeme = "2".toList ∧
     ((mul.right).getD ASTNode.null).nodeType = ASTNodeType.AST_LITERAL ∧
     ((mul.right).getD ASTNode.null).tokLexeme = "3".toList) ∧
    (∀ (analyzer : Analyzer) (node : ASTNode),
      isIntArithExpr node = true → intArithDefined node = true →
      (analyzeExpression analyzer node).1 = true ∧
      (analyzeExpression analyzer node).2.1 = analyzer ∧
      (analyzeExpression analyzer node).2.2.inferredType = "Int".toList ∧
      (analyzeExpression analyzer node).2.2.isFoldable = true ∧
      (analyzeExpression analyzer node).2.2.nodeValue.integerValue = evalIntArith node) ∧
    (let r := parseOpus 50 ("1 + 2 * 3\n".toList)
     let ast := (r.getD (ASTNode.null, initParserState [])).1
     let e := (ast.left).getD ASTNode.null
     let res := analyzeExpression (initAnalyzer initSymbolTable) e
     res.1 = true ∧ res.2.2.inferredType = "Int".toList ∧
     res.2.2.isFoldable = true ∧ res.2.2.nodeValue.integerValue = 7) := by
  refine ⟨by decide, ?_, by decide⟩
  intro analyzer node h _
  exact analyzeExpression_intArith analyzer node h

theorem opusC7_witness :
    (let lit1 := initASTNode ASTNodeType.AST_LITERAL
      (some ⟨TokenType.TOKEN_NUMERIC, TokenError.ERROR_TOKEN_NONE, ⟨1, 1⟩, "1".toList⟩)
     let lit2 := initASTNode ASTNodeType.AST_LITERAL
      (some ⟨TokenType.TOKEN_NUMERIC, TokenError.ERROR_TOKEN_NONE, ⟨1, 5⟩, "2".toList⟩)
     let lit3 := initASTNode ASTNodeType.AST_LITERAL
      (some ⟨TokenType.TOKEN_NUMERIC, TokenError.ERROR_TOKEN_NONE, ⟨1, 9⟩, "3".toList⟩)
     let mul := ((initASTNode ASTNodeType.AST_BINARY_EXPRESSION
      (some ⟨TokenType.TOKEN_ARITHMETIC_MULTIPLICATION, TokenError.ERROR_TOKEN_NONE, ⟨1, 7⟩,
        "*".toList⟩)).withLeft (some lit2)).withRight (some lit3)
     let node := ((initASTNode ASTNodeType.AST_BINARY_EXPRESSION
      (some ⟨TokenType.TOKEN_ARITHMETIC_ADDITION, TokenError.ERROR_TOKEN_NONE, ⟨1, 3⟩,
        "+".toList⟩)).withLeft (some lit1)).withRight (some mul)
     (analyzeExpression (initAnalyzer initSymbolTable) node).1 = true ∧
     (analyzeExpression (initAnalyzer initSymbolTable) node).2.1 =
       initAnalyzer initSymbolTable ∧
     (analyzeExpression (initAnalyzer initSymbolTable) node).2.2.inferredType =
       "Int".toList ∧
     (analyzeExpression (initAnalyzer initSymbolTable) node).2.2.isFoldable = true ∧
     (analyzeExpression (initAnalyzer initSymbolTable) node).2.2.nodeValue.integerValue =
       evalIntArith node) :=
  opusC7_precedence_fold.2.1 _ _ (by decide) (by decide)

/-! Claim C8: end-of-input as a statement delimiter. -/

/-- Claim C8, counterexample: `var x: Int` parses without error when it
ends with a trailing newline, but with the newline removed the declaration
production reports a missing-delimiter error — the parser does not treat
end-of-input as a statement delimiter in the declaration production. -/
theorem opusC8_counterexample :
    ((parseOpus 50 ("var x: Int\n".toList)).map (fun x => x.2.errors) = some []) ∧
    ((parseOpus 50 ("var x: Int".toList)).map (fun x => x.2.errors) =
      some [ParseError.PARSE_ERROR_MISSING_DELIMITER]) := by decide

set_option maxHeartbeats 1000000 in
/-- Claim C8, amended: the parser inserts the terminal Program node as
soon as the current token is `EOF` (first conjunct, for every parser
state), so a text whose last statement ends exactly at `EOF` parses to
the same program with the same empty error trace as the
newline-terminated text — shown for an expression statement (second
conjunct) — and the repeat-until production explicitly accepts `EOF` in
place of its trailing delimiter, so such a text also parses without any
error when the trailing newline is removed (third conjunct); statement
productions that require an explicit trailing delimiter (declarations,
assignments, return) still report missing-delimiter without the trailing
newline, as the counterexample shows. -/
theorem opusC8_amended :
    (∀ (fuel : Nat) (p : ParserState),
      p.currentToken.tokenType = TokenType.TOKEN_EOF →
      parseProgram (fuel + 1) p = some (initASTNode ASTNodeType.AST_PROGRAM none, p)) ∧
    ((parseOpus 50 ("1 + 2\n".toList)).map (fun x => (x.1, x.2.errors)) =
     (parseOpus 50 ("1 + 2".toList)).map (fun x => (x.1, x.2.errors))) ∧
    ((parseOpus 25 ("repeat \x7b\n\x7d until true\n".toList)).map (fun x => x.2.errors) =
      some []) ∧
    ((parseOpus 25 ("repeat \x7b\n\x7d until true".toList)).map (fun x => x.2.errors) =
      some []) := by
  refine ⟨?_, by decide, by decide, by decide⟩
  intro fuel p h
  simp [parseProgram, matchTokenType, h]

/-- Claim C8, witness: the amended theorem's first conjunct applied to the
parser state reached on the empty source (current token `EOF`). -/
theorem opusC8_witness :
    parseProgram 1 (initParserState []) =
      some (initASTNode ASTNodeType.AST_PROGRAM none, initParserState []) :=
  opusC8_amended.1 0 (initParserState []) (by decide)


/-! Claim C6: dead-branch elimination and namespace restoration in
`analyzeConditionalStatement`. -/

/-- The symbol-table signature: the list of (identifier, namespace) pairs of
the symbols, in list order.  Assignments modify only the other symbol fields,
so they preserve the signature. -/
def sigsOf (t : SymbolTable) : List (List Char × Int) :=
  t.symbols.map (fun s => (s.identifier, s.namespaceLevel))

/-- Invariant of the analyzer symbol table: the namespace counter is
non-negative and every stored symbol sits at a level at most the counter. -/
def tableInv (t : SymbolTable) : Prop :=
  0 ≤ t.currentNamespace ∧ ∀ s ∈ t.symbols, s.namespaceLevel ≤ t.currentNamespace

theorem sigsOf_enterNamespace (t : SymbolTable) :
    sigsOf (enterNamespace t) = sigsOf t := rfl

theorem enterNamespace_currentNamespace (t : SymbolTable) :
    (enterNamespace t).currentNamespace = t.currentNamespace + 1 := rfl

theorem tableInv_enterNamespace (t : SymbolTable) (h : tableInv t) :
    tableInv (enterNamespace t) := by
  refine ⟨by have := h.1; simp [enterNamespace]; omega, ?_⟩
  intro s hs
  have := h.2 s hs
  simp [enterNamespace]
  omega

theorem sigsOf_snd_le (t : SymbolTable) (h : tableInv t) :
    ∀ x ∈ sigsOf t, x.2 ≤ t.currentNamespace := by
  intro x hx
  obtain ⟨s0, hs0, he⟩ := List.mem_map.mp hx
  have h2 := congrArg Prod.snd he
  simp at h2
  rw [← h2]
  exact h.2 s0 hs0

theorem tableInv_of_sigsOf (t t' : SymbolTable) (h : tableInv t)
    (hcur : t'.currentNamespace = t.currentNamespace)
    (pre : List (List Char × Int))
    (hs : sigsOf t' = pre ++ sigsOf t)
    (hpre : ∀ x ∈ pre, x.2 = t.currentNamespace) :
    tableInv t' := by
  refine ⟨by rw [hcur]; exact h.1, ?_⟩
  intro s hsmem
  have hm : (s.identifier, s.namespaceLevel) ∈ sigsOf t' :=
    List.mem_map_of_mem _ hsmem
  rw [hs] at hm
  rw [hcur]
  rcases List.mem_append.mp hm with hin | hin
  · exact le_of_eq (hpre _ hin)
  · exact sigsOf_snd_le t h _ hin

theorem sigsOf_filter_ns (cur : Int) (l : List OpusSymbol) :
    (l.filter (fun s => !(s.namespaceLevel = cur))).map
        (fun s => (s.identifier, s.namespaceLevel))
      = (l.map (fun s => (s.identifier, s.namespaceLevel))).filter
          (fun x => !(x.2 = cur)) := by
  induction l with
  | nil => simp
  | cons s rest ih =>
    by_cases h : s.namespaceLevel = cur <;> simp [h, ih]

theorem exitNamespace_restore (t : SymbolTable) (cur : Int)
    (hcur0 : 0 ≤ cur)
    (hcur : t.currentNamespace = cur + 1)
    (pre old : List (List Char × Int))
    (hs : sigsOf t = pre ++ old)
    (hpre : ∀ x ∈ pre, x.2 = cur + 1)
    (hold : ∀ x ∈ old, x.2 ≤ cur) :
    (exitNamespace t).currentNamespace = cur ∧ sigsOf (exitNamespace t) = old := by
  have hgt : (removeSymbolsFromCurrentNamespace t).currentNamespace > 0 := by
    simp [removeSymbolsFromCurrentNamespace, hcur]; omega
  constructor
  · simp [exitNamespace, hgt, removeSymbolsFromCurrentNamespace, hcur]
    rw [if_pos (by omega)]
  · have hrm : sigsOf (removeSymbolsFromCurrentNamespace t) = old := by
      simp only [removeSymbolsFromCurrentNamespace, sigsOf] at *
      rw [hcur, sigsOf_filter_ns, hs, List.filter_append]
      have h1 : pre.filter (fun x => !(x.2 = cur + 1)) = [] := by
        rw [List.filter_eq_nil_iff]
        intro x hx
        simp [hpre x hx]
      have h2 : old.filter (fun x => !(x.2 = cur + 1)) = old := by
        rw [List.filter_eq_self]
        intro x hx
        have := hold x hx
        simp
        omega
      rw [h1, h2, List.nil_append]
    simp [exitNamespace, hgt, sigsOf] at *
    exact hrm

theorem sigsOf_update_go (t : SymbolTable) (identifier : List Char)
    (f : OpusSymbol → OpusSymbol)
    (hfid : ∀ s, (f s).identifier = s.identifier)
    (hfns : ∀ s, (f s).namespaceLevel = s.namespaceLevel) :
    ∀ l : List OpusSymbol,
      (updateSymbolFromCurrentNamespace.go t identifier f l).map
          (fun s => (s.identifier, s.namespaceLevel))
        = l.map (fun s => (s.identifier, s.namespaceLevel)) := by
  intro l
  induction l with
  | nil => simp [updateSymbolFromCurrentNamespace.go]
  | cons s rest ih =>
    simp only [updateSymbolFromCurrentNamespace.go]
    split
    · simp [hfid, hfns]
    · simp [ih]

theorem sigsOf_update (t : SymbolTable) (identifier : List Char)
    (f : OpusSymbol → OpusSymbol)
    (hfid : ∀ s, (f s).identifier = s.identifier)
    (hfns : ∀ s, (f s).namespaceLevel = s.namespaceLevel) :
    sigsOf (updateSymbolFromCurrentNamespace t identifier f) = sigsOf t ∧
    (updateSymbolFromCurrentNamespace t identifier f).currentNamespace
      = t.currentNamespace := by
  refine ⟨?_, rfl⟩
  simp only [sigsOf, updateSymbolFromCurrentNamespace]
  exact sigsOf_update_go t identifier f hfid hfns t.symbols

theorem analyzeDeclarationStatement_sigs (analyzer : Analyzer) (node : ASTNode) :
    (analyzeDeclarationStatement analyzer node).2.symbolTable.currentNamespace
        = analyzer.symbolTable.currentNamespace ∧
    ∃ pre, sigsOf (analyzeDeclarationStatement analyzer node).2.symbolTable
          = pre ++ sigsOf analyzer.symbolTable ∧
      ∀ x ∈ pre, x.2 = analyzer.symbolTable.currentNamespace := by
  simp only [analyzeDeclarationStatement]
  split
  · exact ⟨rfl, [], by simp [reportAnalyzerError], by simp⟩
  · refine ⟨by split <;> simp [addSymbol], ?_⟩
    refine ⟨[(((node.left).getD ASTNode.null).tokLexeme,
      analyzer.symbolTable.currentNamespace)], ?_, by simp⟩
    split <;> simp [addSymbol, sigsOf]

theorem analyzeAssignmentTarget_sigs (analyzer : Analyzer) (node : ASTNode)
    (identifier : List Char) (r0 : Bool) :
    (analyzeAssignmentTarget analyzer node identifier r0).2.1.symbolTable.currentNamespace
        = analyzer.symbolTable.currentNamespace ∧
    sigsOf (analyzeAssignmentTarget analyzer node identifier r0).2.1.symbolTable
        = sigsOf analyzer.symbolTable := by
  simp only [analyzeAssignmentTarget]
  split
  · simp [reportAnalyzerError]
  · split
    · simp [reportAnalyzerError]
    · rcases he : analyzeExpression analyzer ((node.right).getD ASTNode.null)
        with ⟨rb, a1, rh⟩
      have ht := analyzeExpression_symbolTable analyzer ((node.right).getD ASTNode.null)
      rw [he] at ht
      simp only at ht
      simp only [he]
      split
      · simp [reportAnalyzerError, ht]
      · rw [← ht]
        repeat' split
        all_goals simp [sigsOf_update, ht]

theorem analyzeAssignmentStatement_sigs (analyzer : Analyzer) (node : ASTNode) :
    (analyzeAssignmentStatement analyzer node).2.1.symbolTable.currentNamespace
        = analyzer.symbolTable.currentNamespace ∧
    ∃ pre, sigsOf (analyzeAssignmentStatement analyzer node).2.1.symbolTable
          = pre ++ sigsOf analyzer.symbolTable ∧
      ∀ x ∈ pre, x.2 = analyzer.symbolTable.currentNamespace := by
  simp only [analyzeAssignmentStatement]
  split
  · rcases hd : analyzeDeclarationStatement analyzer ((node.left).getD ASTNode.null)
      with ⟨rb, a1⟩
    obtain ⟨hdc, pre1, hds, hdp⟩ :=
      analyzeDeclarationStatement_sigs analyzer ((node.left).getD ASTNode.null)
    rw [hd] at hdc hds
    simp only at hdc hds
    cases rb
    · simp only [hd]
      exact ⟨hdc, pre1, hds, hdp⟩
    · simp only [hd]
      obtain ⟨htc, hts⟩ := analyzeAssignmentTarget_sigs a1 node
        ((a1.symbolTable.symbols.head?.map OpusSymbol.identifier).getD []) true
      refine ⟨by rw [htc, hdc], pre1, by rw [hts, hds], hdp⟩
  · obtain ⟨htc, hts⟩ :=
      analyzeAssignmentTarget_sigs analyzer node ((node.left).getD ASTNode.null).tokLexeme true
    exact ⟨htc, [], by simpa using hts, by simp⟩

theorem analyzer_ns_invariant : ∀ fuel : Nat,
    (∀ analyzer node out, tableInv analyzer.symbolTable →
      analyzeStatement fuel analyzer node = some out →
      out.2.1.symbolTable.currentNamespace = analyzer.symbolTable.currentNamespace ∧
      ∃ pre, sigsOf out.2.1.symbolTable = pre ++ sigsOf analyzer.symbolTable ∧
        ∀ x ∈ pre, x.2 = analyzer.symbolTable.currentNamespace) ∧
    (∀ analyzer stmt out, tableInv analyzer.symbolTable →
      analyzeStatementChain fuel analyzer stmt = some out →
      out.2.1.symbolTable.currentNamespace = analyzer.symbolTable.currentNamespace ∧
      ∃ pre, sigsOf out.2.1.symbolTable = pre ++ sigsOf analyzer.symbolTable ∧
        ∀ x ∈ pre, x.2 = analyzer.symbolTable.currentNamespace) ∧
    (∀ analyzer node out, tableInv analyzer.symbolTable →
      analyzeCodeBlock fuel analyzer node = some out →
      out.2.1.symbolTable.currentNamespace = analyzer.symbolTable.currentNamespace ∧
      ∃ pre, sigsOf out.2.1.symbolTable = pre ++ sigsOf analyzer.symbolTable ∧
        ∀ x ∈ pre, x.2 = analyzer.symbolTable.currentNamespace) ∧
    (∀ analyzer node out, tableInv analyzer.symbolTable →
      analyzeConditionalStatement fuel analyzer node = some out →
      out.2.1.symbolTable.currentNamespace = analyzer.symbolTable.currentNamespace ∧
      sigsOf out.2.1.symbolTable = sigsOf analyzer.symbolTable) := by
  intro fuel
  induction fuel with
  | zero =>
    refine ⟨?_, ?_, ?_, ?_⟩ <;> intro analyzer node out hinv h <;>
      simp [analyzeStatement, analyzeStatementChain, analyzeCodeBlock,
        analyzeConditionalStatement] at h
  | succ fuel ih =>
    obtain ⟨ihS, ihC, ihB, ihCond⟩ := ih
    refine ⟨?_, ?_, ?_, ?_⟩
    -- analyzeStatement
    · intro analyzer node out hinv h
      simp only [analyzeStatement] at h
      split at h
      · rw [Option.some.injEq] at h
        subst h
        simpa using analyzeDeclarationStatement_sigs analyzer node
      · split at h
        · rw [Option.some.injEq] at h
          subst h
          exact analyzeAssignmentStatement_sigs analyzer node
        · split at h
          · obtain ⟨h1, h2⟩ := ihCond analyzer node out hinv h
            exact ⟨h1, [], by simpa using h2, by simp⟩
          · rw [Option.some.injEq] at h
            subst h
            exact ⟨rfl, [], by simp, by simp⟩
    -- analyzeStatementChain
    · intro analyzer stmt out hinv h
      simp only [analyzeStatementChain] at h
      cases stmt with
      | null =>
        rw [Option.some.injEq] at h
        subst h
        exact ⟨rfl, [], by simp, by simp⟩
      | mk t tk l r ty f v =>
        rcases hS : analyzeStatement fuel analyzer (ASTNode.mk t tk l r ty f v)
          with _ | ⟨r1, a1, s1⟩
        · rw [hS] at h; simp at h
        · rw [hS] at h
          simp only at h
          rcases hC : analyzeStatementChain fuel a1 ((s1.right).getD ASTNode.null)
            with _ | ⟨r2, a2, rest1⟩
          · rw [hC] at h; simp at h
          · rw [hC] at h
            simp only [Option.some.injEq] at h
            subst h
            obtain ⟨e1c, pre1, e1s, e1p⟩ := ihS analyzer _ _ hinv hS
            simp only at e1c e1s e1p
            have hinv1 : tableInv a1.symbolTable :=
              tableInv_of_sigsOf _ _ hinv e1c pre1 e1s e1p
            obtain ⟨e2c, pre2, e2s, e2p⟩ := ihC a1 _ _ hinv1 hC
            simp only at e2c e2s e2p
            refine ⟨by simp [e2c, e1c], pre2 ++ pre1, ?_, ?_⟩
            · simp only
              rw [e2s, e1s, List.append_assoc]
            · intro x hx
              rcases List.mem_append.mp hx with hx | hx
              · rw [← e1c]; exact e2p x hx
              · exact e1p x hx
    -- analyzeCodeBlock
    · intro analyzer node out hinv h
      simp only [analyzeCodeBlock] at h
      rcases hC : analyzeStatementChain fuel analyzer ((node.left).getD ASTNode.null)
        with _ | ⟨r1, a1, left1⟩
      · rw [hC] at h; simp at h
      · rw [hC] at h
        simp only at h
        obtain ⟨e1c, pre1, e1s, e1p⟩ := ihC analyzer _ _ hinv hC
        simp only at e1c e1s e1p
        have hinv1 : tableInv a1.symbolTable :=
          tableInv_of_sigsOf _ _ hinv e1c pre1 e1s e1p
        rcases hr : node.right with _ | rn
        · rw [hr] at h
          simp only [Option.some.injEq] at h
          subst h
          exact ⟨e1c, pre1, e1s, e1p⟩
        · rw [hr] at h
          simp only at h
          rcases hB : analyzeCodeBlock fuel a1 rn with _ | ⟨r2, a2, right1⟩
          · rw [hB] at h; simp at h
          · rw [hB] at h
            simp only [Option.some.injEq] at h
            subst h
            obtain ⟨e2c, pre2, e2s, e2p⟩ := ihB a1 _ _ hinv1 hB
            simp only at e2c e2s e2p
            refine ⟨by simp [e2c, e1c], pre2 ++ pre1, ?_, ?_⟩
            · simp only
              rw [e2s, e1s, List.append_assoc]
            · intro x hx
              rcases List.mem_append.mp hx with hx | hx
              · rw [← e1c]; exact e2p x hx
              · exact e1p x hx
    -- analyzeConditionalStatement
    · intro analyzer node out hinv h
      simp only [analyzeConditionalStatement] at h
      rcases he : analyzeExpression analyzer ((node.left).getD ASTNode.null)
        with ⟨r, a1, cond⟩
      have hT := analyzeExpression_symbolTable analyzer ((node.left).getD ASTNode.null)
      rw [he] at hT
      simp only at hT
      rw [he] at h
      simp only at h
      split at h
      · rw [Option.some.injEq] at h
        subst h
        simp [reportAnalyzerError, hT]
      · split at h
        · -- conditional body: two staged branch analyses
          split at h
          · exact absurd h (by simp)
          · rename_i res1 a2 body1 heq1
            have stage1 : a2.symbolTable.currentNamespace
                  = analyzer.symbolTable.currentNamespace ∧
                sigsOf a2.symbolTable = sigsOf analyzer.symbolTable := by
              split at heq1
              · split at heq1
                · exact absurd heq1 (by simp)
                · rename_i rb az b1 heqB
                  rw [Option.some.injEq, Prod.mk.injEq, Prod.mk.injEq] at heq1
                  obtain ⟨-, ha2, -⟩ := heq1
                  obtain ⟨ezc, pre1, ezs, ezp⟩ := ihB _ _ _
                    (by rw [hT]; exact tableInv_enterNamespace _ hinv) heqB
                  simp only [hT] at ezc ezs ezp
                  have hrest := exitNamespace_restore az.symbolTable
                    analyzer.symbolTable.currentNamespace hinv.1
                    (by simpa [enterNamespace] using ezc)
                    pre1 (sigsOf analyzer.symbolTable)
                    (by simpa [sigsOf_enterNamespace] using ezs)
                    (by simpa [enterNamespace] using ezp)
                    (sigsOf_snd_le _ hinv)
                  rw [← ha2]
                  simpa using hrest
              · rw [Option.some.injEq, Prod.mk.injEq, Prod.mk.injEq] at heq1
                obtain ⟨-, ha2, -⟩ := heq1
                rw [← ha2]
                simp [hT]
            split at h
            · exact absurd h (by simp)
            · rename_i res2 a3 body2 heq2
              rw [Option.some.injEq] at h
              subst h
              have hinv2 : tableInv a2.symbolTable :=
                tableInv_of_sigsOf _ _ hinv stage1.1 [] (by simpa using stage1.2)
                  (by simp)
              have stage2 : a3.symbolTable.currentNamespace
                    = a2.symbolTable.currentNamespace ∧
                  sigsOf a3.symbolTable = sigsOf a2.symbolTable := by
                split at heq2
                · split at heq2
                  · exact absurd heq2 (by simp)
                  · rename_i rb az b1 heqB
                    rw [Option.some.injEq, Prod.mk.injEq, Prod.mk.injEq] at heq2
                    obtain ⟨-, ha3, -⟩ := heq2
                    obtain ⟨ezc, pre1, ezs, ezp⟩ := ihB _ _ _
                      (tableInv_enterNamespace _ hinv2) heqB
                    simp only at ezc ezs ezp
                    have hrest := exitNamespace_restore az.symbolTable
                      a2.symbolTable.currentNamespace (by rw [stage1.1]; exact hinv.1)
                      (by simpa [enterNamespace] using ezc)
                      pre1 (sigsOf a2.symbolTable)
                      (by simpa [sigsOf_enterNamespace] using ezs)
                      (by simpa [enterNamespace] using ezp)
                      (sigsOf_snd_le _ hinv2)
                    rw [← ha3]
                    simpa using hrest
                · rw [Option.some.injEq, Prod.mk.injEq, Prod.mk.injEq] at heq2
                  obtain ⟨-, ha3, -⟩ := heq2
                  rw [← ha3]
                  exact ⟨rfl, rfl⟩
              exact ⟨by simp only; rw [stage2.1, stage1.1],
                by simp only; rw [stage2.2, stage1.2]⟩
        · rw [Option.some.injEq] at h
          subst h
          simp [hT]

theorem condTrueCase (fuel : Nat) (analyzer a1 : Analyzer) (node cond0 body cond : ASTNode)
    (hl : node.left = some cond0) (hr : node.right = some body)
    (he : analyzeExpression analyzer cond0 = (true, a1, cond))
    (hty : cond.inferredType = "Bool".toList)
    (hf : cond.isFoldable = true)
    (hv : cond.nodeValue.booleanValue = true)
    (hb : body.nodeType = ASTNodeType.AST_CONDITIONAL_BODY)
    (hbl : (body.left).isSome) :
    (analyzeConditionalStatement (fuel + 1) analyzer node).map (fun x => (x.1, x.2.1))
      = (analyzeCodeBlock fuel { a1 with symbolTable := enterNamespace a1.symbolTable }
            ((body.left).getD ASTNode.null)).map
          (fun x => (x.1, { x.2.1 with
            symbolTable := exitNamespace x.2.1.symbolTable })) := by
  simp only [analyzeConditionalStatement, hl, Option.getD_some, he, hr]
  simp only [hty, hf, hv, hb]
  simp only [Bool.not_true, Bool.and_false, Bool.not_false, Bool.and_true, hbl,
    Bool.true_and, ne_eq, not_true_eq_false, Bool.or_self, Bool.false_or,
    decide_eq_true_eq, if_false]
  rcases hcb : analyzeCodeBlock fuel
      { a1 with symbolTable := enterNamespace a1.symbolTable }
      ((body.left).getD ASTNode.null) with _ | ⟨rb, az, b1⟩ <;> simp [hcb]

theorem ASTNode.right_withLeft (n : ASTNode) (x : Option ASTNode) :
    (n.withLeft x).right = n.right := by
  cases n with
  | null => rfl
  | mk t tk l r ty f v => cases r <;> rfl

theorem condFalseCase (fuel : Nat) (analyzer a1 : Analyzer) (node cond0 body cond : ASTNode)
    (hl : node.left = some cond0) (hr : node.right = some body)
    (he : analyzeExpression analyzer cond0 = (true, a1, cond))
    (hty : cond.inferredType = "Bool".toList)
    (hf : cond.isFoldable = true)
    (hv : cond.nodeValue.booleanValue = false)
    (hb : body.nodeType = ASTNodeType.AST_CONDITIONAL_BODY)
    (hbr : (body.right).isSome) :
    (analyzeConditionalStatement (fuel + 1) analyzer node).map (fun x => (x.1, x.2.1))
      = (analyzeCodeBlock fuel { a1 with symbolTable := enterNamespace a1.symbolTable }
            ((body.right).getD ASTNode.null)).map
          (fun x => (x.1, { x.2.1 with
            symbolTable := exitNamespace x.2.1.symbolTable })) := by
  simp only [analyzeConditionalStatement, hl, Option.getD_some, he, hr]
  simp only [hty, hf, hv, hb]
  simp only [Bool.not_true, Bool.and_false, Bool.not_false, Bool.and_true, hbr,
    Bool.true_and, ne_eq, not_true_eq_false, Bool.or_self, Bool.false_or,
    decide_eq_true_eq, if_false]
  rcases hcb : analyzeCodeBlock fuel
      { a1 with symbolTable := enterNamespace a1.symbolTable }
      ((body.right).getD ASTNode.null) with _ | ⟨rb, az, b1⟩ <;> simp [hcb, hbr]

theorem condBothCase (fuel : Nat) (analyzer a1 : Analyzer) (node cond0 body cond : ASTNode)
    (hl : node.left = some cond0) (hr : node.right = some body)
    (he : analyzeExpression analyzer cond0 = (true, a1, cond))
    (hty : cond.inferredType = "Bool".toList)
    (hf : cond.isFoldable = false)
    (hb : body.nodeType = ASTNodeType.AST_CONDITIONAL_BODY)
    (hbl : (body.left).isSome) (hbr : (body.right).isSome) :
    (analyzeConditionalStatement (fuel + 1) analyzer node).map (fun x => (x.1, x.2.1))
      = match analyzeCodeBlock fuel
            { a1 with symbolTable := enterNamespace a1.symbolTable }
            ((body.left).getD ASTNode.null) with
        | none => none
        | some (rb1, az1, _) =>
          (analyzeCodeBlock fuel
              { az1 with symbolTable :=
                  enterNamespace (exitNamespace az1.symbolTable) }
              ((body.right).getD ASTNode.null)).map
            (fun y => (y.1 && rb1, { y.2.1 with
              symbolTable := exitNamespace y.2.1.symbolTable })) := by
  simp only [analyzeConditionalStatement, hl, Option.getD_some, he, hr]
  simp only [hty, hf, hb]
  simp only [Bool.false_and, Bool.not_false, Bool.and_true, hbl, hbr,
    Bool.true_and, ne_eq, not_true_eq_false, Bool.or_self, Bool.false_or,
    decide_eq_true_eq, if_false]
  rcases hcb : analyzeCodeBlock fuel
      { a1 with symbolTable := enterNamespace a1.symbolTable }
      ((body.left).getD ASTNode.null) with _ | ⟨rb1, az1, b1⟩
  · simp [hcb]
  · simp only [hcb]
    have hbr' : ((body.withLeft (some b1)).right).isSome = true := by
      rw [ASTNode.right_withLeft]; exact hbr
    rcases hcb2 : analyzeCodeBlock fuel
        { az1 with symbolTable := enterNamespace (exitNamespace az1.symbolTable) }
        (((body.withLeft (some b1)).right).getD ASTNode.null) with _ | ⟨rb2, az2, b2⟩
    · rw [ASTNode.right_withLeft] at hcb2
      simp [hcb2, hbr, ASTNode.right_withLeft]
    · rw [ASTNode.right_withLeft] at hcb2
      simp [hcb2, hbr, ASTNode.right_withLeft]

/-- Claim C6: for a conditional statement whose condition analyzes
successfully to type `Bool`: (1) when the condition is foldable with value
true, only the if-branch is analyzed (the result does not depend on the
else-branch, which does not appear on the right-hand side); (2) when it is
foldable with value false, only the else-branch is analyzed; (3) when it
is not foldable, both branches are analyzed in sequence; in each case the
analyzed branch runs inside an `enterNamespace`/`exitNamespace` pair; and
(4) under the table invariant, the whole conditional statement preserves
the namespace counter and the list of (identifier, namespace) signatures
of the symbol table, so no symbol declared inside a branch survives it. -/
theorem opusC6_conditional :
    (∀ (fuel : Nat) (analyzer a1 : Analyzer) (node cond0 body cond : ASTNode),
      node.left = some cond0 → node.right = some body →
      analyzeExpression analyzer cond0 = (true, a1, cond) →
      cond.inferredType = "Bool".toList →
      cond.isFoldable = true →
      cond.nodeValue.booleanValue = true →
      body.nodeType = ASTNodeType.AST_CONDITIONAL_BODY →
      (body.left).isSome →
      (analyzeConditionalStatement (fuel + 1) analyzer node).map (fun x => (x.1, x.2.1))
        = (analyzeCodeBlock fuel
              { a1 with symbolTable := enterNamespace a1.symbolTable }
              ((body.left).getD ASTNode.null)).map
            (fun x => (x.1, { x.2.1 with
              symbolTable := exitNamespace x.2.1.symbolTable }))) ∧
    (∀ (fuel : Nat) (analyzer a1 : Analyzer) (node cond0 body cond : ASTNode),
      node.left = some cond0 → node.right = some body →
      analyzeExpression analyzer cond0 = (true, a1, cond) →
      cond.inferredType = "Bool".toList →
      cond.isFoldable = true →
      cond.nodeValue.booleanValue = false →
      body.nodeType = ASTNodeType.AST_CONDITIONAL_BODY →
      (body.right).isSome →
      (analyzeConditionalStatement (fuel + 1) analyzer node).map (fun x => (x.1, x.2.1))
        = (analyzeCodeBlock fuel
              { a1 with symbolTable := enterNamespace a1.symbolTable }
              ((body.right).getD ASTNode.null)).map
            (fun x => (x.1, { x.2.1 with
              symbolTable := exitNamespace x.2.1.symbolTable }))) ∧
    (∀ (fuel : Nat) (analyzer a1 : Analyzer) (node cond0 body cond : ASTNode),
      node.left = some cond0 → node.right = some body →
      analyzeExpression analyzer cond0 = (true, a1, cond) →
      cond.inferredType = "Bool".toList →
      cond.isFoldable = false →
      body.nodeType = ASTNodeType.AST_CONDITIONAL_BODY →
      (body.left).isSome → (body.right).isSome →
      (analyzeConditionalStatement (fuel + 1) analyzer node).map (fun x => (x.1, x.2.1))
        = match analyzeCodeBlock fuel
              { a1 with symbolTable := enterNamespace a1.symbolTable }
              ((body.left).getD ASTNode.null) with
          | none => none
          | some (rb1, az1, _) =>
            (analyzeCodeBlock fuel
                { az1 with symbolTable :=
                    enterNamespace (exitNamespace az1.symbolTable) }
                ((body.right).getD ASTNode.null)).map
              (fun y => (y.1 && rb1, { y.2.1 with
                symbolTable := exitNamespace y.2.1.symbolTable }))) ∧
    (∀ (fuel : Nat) (analyzer : Analyzer) (node : ASTNode)
        (out : Bool × Analyzer × ASTNode),
      tableInv analyzer.symbolTable →
      analyzeConditionalStatement fuel analyzer node = some out →
      out.2.1.symbolTable.currentNamespace
          = analyzer.symbolTable.currentNamespace ∧
      sigsOf out.2.1.symbolTable = sigsOf analyzer.symbolTable) :=
  ⟨fun fuel analyzer a1 node cond0 body cond hl hr he hty hf hv hb hbl =>
    condTrueCase fuel analyzer a1 node cond0 body cond hl hr he hty hf hv hb hbl,
   fun fuel analyzer a1 node cond0 body cond hl hr he hty hf hv hb hbr =>
    condFalseCase fuel analyzer a1 node cond0 body cond hl hr he hty hf hv hb hbr,
   fun fuel analyzer a1 node cond0 body cond hl hr he hty hf hb hbl hbr =>
    condBothCase fuel analyzer a1 node cond0 body cond hl hr he hty hf hb hbl hbr,
   fun fuel analyzer node out hinv h =>
    (analyzer_ns_invariant fuel).2.2.2 analyzer node out hinv h⟩


/-- Concrete inputs for the C6 witness: `if true { }` with an empty
if-body and no else-body. -/
def c6Cond0 : ASTNode :=
  initASTNode ASTNodeType.AST_BOOLEAN_LITERAL
    (some ⟨TokenType.TOKEN_KEYWORD_TRUE, TokenError.ERROR_TOKEN_NONE, ⟨1, 4⟩,
      "true".toList⟩)

def c6Block : ASTNode := initASTNode ASTNodeType.AST_CODE_BLOCK none

def c6Body : ASTNode :=
  (initASTNode ASTNodeType.AST_CONDITIONAL_BODY none).withLeft (some c6Block)

def c6Node : ASTNode :=
  ((initASTNode ASTNodeType.AST_CONDITIONAL_STATEMENT none).withLeft
    (some c6Cond0)).withRight (some c6Body)

/-- The analyzed condition node the analyzer produces for `c6Cond0`. -/
def c6CondR : ASTNode :=
  ((c6Cond0.withInferredType "Bool".toList).withFoldable true).withValue
    { uninitNodeValue with booleanValue := true }

/-- Claim C6, witness: the branch-elimination equation and the
namespace-preservation statement applied to the concrete conditional
`if true { }` over the initial analyzer. -/
theorem opusC6_witness :
    (let a0 := initAnalyzer initSymbolTable
     ((analyzeConditionalStatement 4 a0 c6Node).map (fun x => (x.1, x.2.1))
        = (analyzeCodeBlock 3
              { a0 with symbolTable := enterNamespace a0.symbolTable }
              ((c6Body.left).getD ASTNode.null)).map
            (fun x => (x.1, { x.2.1 with
              symbolTable := exitNamespace x.2.1.symbolTable }))) ∧
     (((analyzeConditionalStatement 4 a0 c6Node).getD
          (true, a0, ASTNode.null)).2.1.symbolTable.currentNamespace
        = a0.symbolTable.currentNamespace ∧
      sigsOf ((analyzeConditionalStatement 4 a0 c6Node).getD
          (true, a0, ASTNode.null)).2.1.symbolTable
        = sigsOf a0.symbolTable)) := by
  refine ⟨?_, ?_⟩
  · exact opusC6_conditional.1 3 (initAnalyzer initSymbolTable)
      (initAnalyzer initSymbolTable) c6Node c6Cond0 c6Body c6CondR
      (by decide) (by decide) (by decide) (by decide) (by decide) (by decide)
      (by decide) (by decide)
  · exact opusC6_conditional.2.2.2 4 (initAnalyzer initSymbolTable) c6Node
      ((analyzeConditionalStatement 4 (initAnalyzer initSymbolTable) c6Node).getD
        (true, initAnalyzer initSymbolTable, ASTNode.null))
      ⟨by decide, by intro s hs; simp [initAnalyzer, initSymbolTable] at hs⟩
      (by decide)


/-! Claim C10: panic-mode recovery and the statement boundary. -/

theorem escapeParseError_sync : ∀ (fuel : Nat) (p p' : ParserState),
    escapeParseError fuel p = some p' →
    p'.currentToken.tokenType = TokenType.TOKEN_DELIMITER ∨
    p'.currentToken.tokenType = TokenType.TOKEN_EOF := by
  intro fuel
  induction fuel with
  | zero => intro p p' h; simp [escapeParseError] at h
  | succ fuel ih =>
    intro p p' h
    simp only [escapeParseError] at h
    split at h
    · rw [Option.some.injEq] at h
      subst h
      rename_i hg
      rcases Bool.or_eq_true .. |>.mp hg with h1 | h1
      · exact Or.inl (by simpa [matchTokenType] using h1)
      · exact Or.inr (by simpa [matchTokenType] using h1)
    · exact ih _ _ h

theorem parseErrorExit_sync (fuel : Nat) (e : ParseError) (diag : Option Token)
    (p : ParserState) (n : ASTNode) (p' : ParserState)
    (h : parseErrorExit fuel e diag p = some (n, p')) :
    n.nodeType = ASTNodeType.AST_ERROR ∧
    (p'.currentToken.tokenType = TokenType.TOKEN_DELIMITER ∨
     p'.currentToken.tokenType = TokenType.TOKEN_EOF) := by
  simp only [parseErrorExit] at h
  split at h
  · exact absurd h (by simp)
  · rename_i ps hesc
    rw [Option.some.injEq, Prod.mk.injEq] at h
    obtain ⟨hn, hp⟩ := h
    subst hn
    subst hp
    exact ⟨rfl, escapeParseError_sync _ _ _ hesc⟩

theorem parseStatement_unresolvable_sync (fuel : Nat) (p : ParserState)
    (n : ASTNode) (p' : ParserState)
    (h1 : matchTokenType p TokenType.TOKEN_KEYWORD_VAR = false)
    (h2 : matchTokenType p TokenType.TOKEN_KEYWORD_LET = false)
    (h3 : matchTokenType p TokenType.TOKEN_KEYWORD_FUNC = false)
    (h4 : matchTokenType p TokenType.TOKEN_KEYWORD_RETURN = false)
    (h5 : matchTokenType p TokenType.TOKEN_KEYWORD_IF = false)
    (h6 : matchTokenType p TokenType.TOKEN_KEYWORD_REPEAT = false)
    (h7 : matchTokenType p TokenType.TOKEN_KEYWORD_FOR = false)
    (h8 : isExpression p = false)
    (h : parseStatement (fuel + 1) p = some (n, p')) :
    n.nodeType = ASTNodeType.AST_ERROR ∧
    (p'.currentToken.tokenType = TokenType.TOKEN_DELIMITER ∨
     p'.currentToken.tokenType = TokenType.TOKEN_EOF) := by
  simp only [parseStatement, h1, h2, h3, h4, h5, h6, h7, h8, Bool.or_self,
    Bool.false_eq_true, if_false] at h
  exact parseErrorExit_sync _ _ _ _ _ _ h

/-- Claim C10, counterexample: in the statement `( * )` followed by a
newline and `x`, the nested expression error synchronizes at the newline
delimiter, but the parenthesized-expression production then consumes one
more token without checking it (`parser.c` comments that the closing
bracket is guaranteed), so `parseStatement` returns the substituted Error
node with the current token being the identifier `x` — neither a
Delimiter nor EOF. -/
theorem opusC10_counterexample :
    (let r := (parseStatement 40 (initParserState "( * )\nx\n".toList)).getD
       (ASTNode.null, initParserState [])
     (parseStatement 40 (initParserState "( * )\nx\n".toList)).isSome = true ∧
     r.1.nodeType = ASTNodeType.AST_ERROR ∧
     r.2.currentToken.tokenType = TokenType.TOKEN_IDENTIFIER) := by decide

/-- Claim C10, amended: panic-mode recovery itself always synchronizes at
a statement boundary — `escapeParseError` only ever stops on a Delimiter
or EOF token, and every substituted Error node is created by the common
report/escape/substitute sequence (`parseErrorExit`), whose resulting
state therefore has a Delimiter or EOF current token; in particular a
statement that starts with no statement keyword and no expression starter
fails with an Error node and a synchronized state.  The claim's universal
form is false only because the parenthesized-expression production later
consumes one token past the synchronization point while passing the Error
node through (see the counterexample). -/
theorem opusC10_amended :
    (∀ (fuel : Nat) (p p' : ParserState),
      escapeParseError fuel p = some p' →
      p'.currentToken.tokenType = TokenType.TOKEN_DELIMITER ∨
      p'.currentToken.tokenType = TokenType.TOKEN_EOF) ∧
    (∀ (fuel : Nat) (e : ParseError) (diag : Option Token) (p : ParserState)
        (n : ASTNode) (p' : ParserState),
      parseErrorExit fuel e diag p = some (n, p') →
      n.nodeType = ASTNodeType.AST_ERROR ∧
      (p'.currentToken.tokenType = TokenType.TOKEN_DELIMITER ∨
       p'.currentToken.tokenType = TokenType.TOKEN_EOF)) ∧
    (∀ (fuel : Nat) (p : ParserState) (n : ASTNode) (p' : ParserState),
      matchTokenType p TokenType.TOKEN_KEYWORD_VAR = false →
      matchTokenType p TokenType.TOKEN_KEYWORD_LET = false →
      matchTokenType p TokenType.TOKEN_KEYWORD_FUNC = false →
      matchTokenType p TokenType.TOKEN_KEYWORD_RETURN = false →
      matchTokenType p TokenType.TOKEN_KEYWORD_IF = false →
      matchTokenType p TokenType.TOKEN_KEYWORD_REPEAT = false →
      matchTokenType p TokenType.TOKEN_KEYWORD_FOR = false →
      isExpression p = false →
      parseStatement (fuel + 1) p = some (n, p') →
      n.nodeType = ASTNodeType.AST_ERROR ∧
      (p'.currentToken.tokenType = TokenType.TOKEN_DELIMITER ∨
       p'.currentToken.tokenType = TokenType.TOKEN_EOF)) :=
  ⟨escapeParseError_sync,
   fun fuel e diag p n p' h => parseErrorExit_sync fuel e diag p n p' h,
   fun fuel p n p' h1 h2 h3 h4 h5 h6 h7 h8 h =>
    parseStatement_unresolvable_sync fuel p n p' h1 h2 h3 h4 h5 h6 h7 h8 h⟩

/-- Claim C10, witness: the amended theorem applied to the concrete
drain `x y\n` and to the unresolvable statement `}\n`. -/
theorem opusC10_witness :
    ((((escapeParseError 5 (initParserState "x y\n".toList)).getD
        (initParserState [])).currentToken.tokenType
          = TokenType.TOKEN_DELIMITER ∨
      ((escapeParseError 5 (initParserState "x y\n".toList)).getD
        (initParserState [])).currentToken.tokenType = TokenType.TOKEN_EOF) ∧
     (((parseStatement 5 (initParserState "\x7d\n".toList)).getD
        (ASTNode.null, initParserState [])).1.nodeType = ASTNodeType.AST_ERROR ∧
      ((((parseStatement 5 (initParserState "\x7d\n".toList)).getD
          (ASTNode.null, initParserState [])).2.currentToken.tokenType
            = TokenType.TOKEN_DELIMITER) ∨
       (((parseStatement 5 (initParserState "\x7d\n".toList)).getD
          (ASTNode.null, initParserState [])).2.currentToken.tokenType
            = TokenType.TOKEN_EOF)))) := by
  constructor
  · exact opusC10_amended.1 5 (initParserState "x y\n".toList)
      ((escapeParseError 5 (initParserState "x y\n".toList)).getD (initParserState []))
      (by decide)
  · exact opusC10_amended.2.2 4 (initParserState "\x7d\n".toList)
      ((parseStatement 5 (initParserState "\x7d\n".toList)).getD
        (ASTNode.null, initParserState [])).1
      ((parseStatement 5 (initParserState "\x7d\n".toList)).getD
        (ASTNode.null, initParserState [])).2
      (by decide) (by decide) (by decide) (by decide) (by decide) (by decide)
      (by decide) (by decide) (by decide)
